import Mathlib

/-!
Verification development for the Ulyxes total-station driver.

Conventions of the shallow embedding:

* Python floats are idealised as exact rationals (`ℚ`).  Every angle value
  stored "in radians" by the source is represented here by its rational
  multiple of π, i.e. a value `q : ℚ` denotes the radian value `q * π`.
  All unit conversions of the source (`deg2rad`, `gon2rad`, `dms2rad`,
  `dm2rad`, `rad2gon`, `rad2dms`, ...) are rational multiples of π on the
  radian side, so under this convention every conversion becomes an exact,
  executable rational function; e.g. `RO = 180*3600/π`, hence
  `angle * RO = q * 648000` for an angle denoting `q * π` radians.
* Python exceptions are modelled by `Option` (a raised exception is `none`).
* Python strings are modelled as `List Char`.
* The trigonometric library calls `math.sin`, `math.cos`, `math.acos` of the
  applications are kept abstract: the embedding is parameterised over
  functions `sinR cosR acosR : ℚ → ℚ` standing for the float routines
  composed with the π-scaling of the angle representation.
-/

/-- Truncation of a rational toward zero, the semantics of Python `int(x)`
applied to a float. -/
def ratTrunc (q : ℚ) : ℤ :=
  if q < 0 then -⌊-q⌋ else ⌊q⌋

/-- Python `round` to an integer: round half to even (banker's rounding). -/
def pyRound (q : ℚ) : ℤ :=
  if q - ⌊q⌋ < 1/2 then ⌊q⌋
  else if 1/2 < q - ⌊q⌋ then ⌊q⌋ + 1
  else if ⌊q⌋ % 2 = 0 then ⌊q⌋ else ⌊q⌋ + 1

/-- Normalisation of an angle into [0, 2π), in π-units: reduce modulo 2.
Models `Angle.Positive` of the legacy angle module (modelled from the spec:
"a positive flag controls whether negative results are shifted into
[0, 2π)"); the legacy `angle.py` module itself is not part of the sources. -/
def posNorm (q : ℚ) : ℚ := q - 2 * ⌊q / 2⌋

namespace Ulx

/-- Embeds `Angle.deg2rad` (src/ulyxes/__init__.py:50): `math.radians`,
in π-units `d ↦ d / 180`. -/
def deg2rad (d : ℚ) : ℚ := d / 180

/-- Embeds `Angle.gon2rad` (src/ulyxes/__init__.py:56): `angle / 200 * π`,
in π-units `g ↦ g / 200`. -/
def gon2rad (g : ℚ) : ℚ := g / 200

/-- Embeds `Angle.rad2gon` (src/ulyxes/__init__.py:108): `angle / π * 200`,
in π-units `q ↦ q * 200`. -/
def rad2gon (q : ℚ) : ℚ := q * 200

/-- Embeds `Angle.rad2deg` (src/ulyxes/__init__.py:120): `math.degrees`,
in π-units `q ↦ q * 180`. -/
def rad2deg (q : ℚ) : ℚ := q * 180

/-- Embeds `Angle.dm2rad` (src/ulyxes/__init__.py:78):
`w = angle / 100; d = int(w); radians(d + (w - d) * 100 / 60)`.
`int` truncates toward zero, hence `ratTrunc`. -/
def dm2rad (x : ℚ) : ℚ :=
  let w := x / 100
  let d : ℚ := (ratTrunc w : ℚ)
  (d + (w - d) * 100 / 60) / 180

/-- The NMEA conversion as the specification words it: degrees are
`floor(x/100)` and the remainder is minutes scaled by 1/60.  Second
definition for comparison with the source's `dm2rad`, following the spec's
words only. -/
def dm2radFloorSpec (x : ℚ) : ℚ :=
  ((⌊x / 100⌋ : ℚ) + (x - 100 * (⌊x / 100⌋ : ℚ)) / 60) / 180

end Ulx

theorem ratTrunc_of_nonneg {q : ℚ} (h : 0 ≤ q) : ratTrunc q = ⌊q⌋ := by
  unfold ratTrunc
  rw [if_neg (by exact not_lt.mpr h)]

/-! ### Digit strings

Helpers for the textual angle formats: decimal digit sequences as produced
by Python's `%d` / `%02d` formatting and consumed by `float`/`int` parsing. -/

/-- Character for one decimal digit (only ever applied to values below 10). -/
def digitChar10 (d : ℕ) : Char :=
  match d with
  | 0 => '0' | 1 => '1' | 2 => '2' | 3 => '3' | 4 => '4'
  | 5 => '5' | 6 => '6' | 7 => '7' | 8 => '8' | _ => '9'

/-- Decimal digit list of a natural number, most significant digit first,
as produced by Python's `"%d"` formatting of a nonnegative integer. -/
def natToDigits (n : ℕ) : List Char :=
  if n < 10 then [digitChar10 n]
  else natToDigits (n / 10) ++ [digitChar10 (n % 10)]
termination_by n
decreasing_by
  exact Nat.div_lt_self (by omega) (by omega)

theorem digitChar10_toNat {d : ℕ} (h : d < 10) : (digitChar10 d).toNat = 48 + d := by
  interval_cases d <;> rfl

theorem digitChar10_digit {d : ℕ} (h : d < 10) :
    48 ≤ (digitChar10 d).toNat ∧ (digitChar10 d).toNat ≤ 57 := by
  rw [digitChar10_toNat h]
  omega

/-- Numeric value of a decimal digit list (the accumulator form used when
parsing an all-digit string). -/
def digitsVal (l : List Char) : ℕ :=
  l.foldl (fun a c => 10 * a + (c.toNat - 48)) 0

/-- Zero-padded two-digit rendering, Python's `"%02d"`. -/
def pad2 (n : ℕ) : List Char :=
  if n < 10 then '0' :: natToDigits n else natToDigits n

theorem digitsVal_aux (l : List Char) (a : ℕ) :
    l.foldl (fun a c => 10 * a + (c.toNat - 48)) a =
      a * 10 ^ l.length + digitsVal l := by
  induction l generalizing a with
  | nil => simp [digitsVal]
  | cons c rest ih =>
      simp only [List.foldl_cons, List.length_cons, digitsVal]
      rw [ih, ih (10 * 0 + (c.toNat - 48))]
      ring

theorem digitsVal_append (l m : List Char) :
    digitsVal (l ++ m) = digitsVal l * 10 ^ m.length + digitsVal m := by
  unfold digitsVal
  rw [List.foldl_append, digitsVal_aux]
  rfl

theorem digitsVal_natToDigits (n : ℕ) : digitsVal (natToDigits n) = n := by
  induction n using Nat.strong_induction_on with
  | _ n ih =>
      unfold natToDigits
      by_cases h : n < 10
      · rw [if_pos h]
        simp [digitsVal, digitChar10_toNat h]
      · rw [if_neg h]
        rw [digitsVal_append, ih (n / 10) (Nat.div_lt_self (by omega) (by omega))]
        have hm : n % 10 < 10 := Nat.mod_lt _ (by omega)
        simp [digitsVal, digitChar10_toNat hm]
        omega

theorem natToDigits_all_digits (n : ℕ) :
    ∀ c ∈ natToDigits n, 48 ≤ c.toNat ∧ c.toNat ≤ 57 := by
  induction n using Nat.strong_induction_on with
  | _ n ih =>
      unfold natToDigits
      by_cases h : n < 10
      · rw [if_pos h]
        intro c hc
        simp at hc
        subst hc
        exact digitChar10_digit h
      · rw [if_neg h]
        intro c hc
        rcases List.mem_append.mp hc with h1 | h2
        · exact ih (n / 10) (Nat.div_lt_self (by omega) (by omega)) c h1
        · simp at h2
          subst h2
          exact digitChar10_digit (Nat.mod_lt _ (by omega))

theorem natToDigits_length_pos (n : ℕ) : 1 ≤ (natToDigits n).length := by
  unfold natToDigits
  by_cases h : n < 10
  · simp [h]
  · simp [h]

theorem natToDigits_length_le (n : ℕ) (k : ℕ) (h : n < 10 ^ k) (hk : 1 ≤ k) :
    (natToDigits n).length ≤ k := by
  induction k generalizing n with
  | zero => omega
  | succ k ih =>
      unfold natToDigits
      by_cases h10 : n < 10
      · simp [h10]
      · rw [if_neg h10]
        simp only [List.length_append, List.length_singleton]
        have hk1 : 1 ≤ k := by
          by_contra hc
          have hk0 : k = 0 := by omega
          subst hk0
          simp at h
          omega
        have hdiv : n / 10 < 10 ^ k := by
          rw [Nat.div_lt_iff_lt_mul (by omega)]
          calc n < 10 ^ (k + 1) := h
          _ = 10 ^ k * 10 := by ring
        have := ih (n / 10) hdiv hk1
        omega

/-! ### Splitting on a separator character

Counterpart of Python's `str.split(sep)` for a one-character separator. -/

/-- Split a character list at every occurrence of `sep`, Python
`s.split(sep)`: `n` separators yield `n+1` (possibly empty) groups. -/
def splitChar (sep : Char) : List Char → List (List Char)
  | [] => [[]]
  | c :: rest =>
      let r := splitChar sep rest
      if c = sep then [] :: r
      else
        match r with
        | [] => [[c]]
        | g :: gs => (c :: g) :: gs

theorem splitChar_ne_nil (sep : Char) (l : List Char) : splitChar sep l ≠ [] := by
  cases l with
  | nil => simp [splitChar]
  | cons c rest =>
      simp only [splitChar]
      by_cases h : c = sep
      · simp [h]
      · rw [if_neg h]
        cases splitChar sep rest with
        | nil => simp
        | cons g gs => simp

theorem splitChar_no_sep {sep : Char} {l : List Char} (h : sep ∉ l) :
    splitChar sep l = [l] := by
  induction l with
  | nil => rfl
  | cons c rest ih =>
      have hc : c ≠ sep := fun hcc => h (hcc ▸ List.mem_cons_self c rest)
      have hr : sep ∉ rest := fun hm => h (List.mem_cons_of_mem c hm)
      simp only [splitChar]
      rw [if_neg hc, ih hr]

theorem splitChar_append_sep {sep : Char} {a : List Char} (b : List Char)
    (h : sep ∉ a) :
    splitChar sep (a ++ sep :: b) = a :: splitChar sep b := by
  induction a with
  | nil => simp [splitChar]
  | cons c rest ih =>
      have hc : c ≠ sep := fun hcc => h (hcc ▸ List.mem_cons_self c rest)
      have hr : sep ∉ rest := fun hm => h (List.mem_cons_of_mem c hm)
      simp only [List.cons_append, splitChar]
      rw [if_neg hc]
      simp only [List.append_eq]
      rw [ih hr]

/-! ### DMS format of the reworked Angle class (src/ulyxes/__init__.py) -/

namespace Ulx

/-- The regex character class `[0-9]`. -/
def charDigit (c : Char) : Bool :=
  decide (48 ≤ c.toNat) && decide (c.toNat ≤ 57)

/-- Validation pattern of `Angle.dms2rad` (src/ulyxes/__init__.py:65), the
regular expression `^[0-9]\x7b1,3\x7d(-[0-9]\x7b1,2\x7d)\x7b0,2\x7d$`
rephrased over the dash-separated groups of the string: one to three groups,
each entirely decimal digits, the first of one to three characters, the
following ones of one or two characters.  (Splitting at every dash is
faithful: the pattern forbids dashes inside groups, consecutive dashes and a
leading or trailing dash, which is exactly "every group nonempty and free of
dashes".) -/
def dmsValid (s : List Char) : Bool :=
  match splitChar '-' s with
  | [g] => g.all charDigit && decide (1 ≤ g.length) && decide (g.length ≤ 3)
  | [g, g2] =>
      (g.all charDigit && decide (1 ≤ g.length) && decide (g.length ≤ 3)) &&
      (g2.all charDigit && decide (1 ≤ g2.length) && decide (g2.length ≤ 2))
  | [g, g2, g3] =>
      (g.all charDigit && decide (1 ≤ g.length) && decide (g.length ≤ 3)) &&
      (g2.all charDigit && decide (1 ≤ g2.length) && decide (g2.length ≤ 2)) &&
      (g3.all charDigit && decide (1 ≤ g3.length) && decide (g3.length ≤ 2))
  | _ => false

/-- Accumulation loop of `Angle.dms2rad` (src/ulyxes/__init__.py:69):
`div = 1; for val in items: a += val / div; div *= 60`. -/
def dmsAccum : List ℚ → ℚ → ℚ
  | [], _ => 0
  | v :: rest, div => v / div + dmsAccum rest (div * 60)

/-- Embeds `Angle.dms2rad` (src/ulyxes/__init__.py:62): validate against the
digit-group pattern (a failed match raises `ValueError`, modelled `none`),
split on dashes, convert each group with `float` (the groups are all-digit
strings, so this is `digitsVal`), accumulate `D + MM/60 + SS/3600` and
convert to radians (π-units: divide by 180). -/
def dms2rad (s : List Char) : Option ℚ :=
  if dmsValid s then
    some (dmsAccum ((splitChar '-' s).map (fun g => (digitsVal g : ℚ))) 1 / 180)
  else none

/-- Embeds `Angle.rad2dms` (src/ulyxes/__init__.py:126): leading sign for
negative input only, `secs = round(abs(angle) * RO)` (in π-units
`RO`-scaling is multiplication by 648000), two `divmod` splits, and
`f"..."` rendering with plain degrees and zero-padded two-digit minutes and
seconds. -/
def rad2dms (q : ℚ) : List Char :=
  let sgn : List Char := if q < 0 then ['-'] else []
  let secs : ℕ := (pyRound (|q| * 648000)).toNat
  let mi := secs / 60
  let sec := secs % 60
  let deg := mi / 60
  let mi2 := mi % 60
  sgn ++ natToDigits deg ++ '-' :: (pad2 mi2 ++ '-' :: pad2 sec)

end Ulx

/-! ### Round-trip lemmas for the DMS format -/

namespace Ulx

theorem charDigit_of {c : Char} (h1 : 48 ≤ c.toNat) (h2 : c.toNat ≤ 57) :
    charDigit c = true := by
  unfold charDigit
  simp [h1, h2]

theorem natToDigits_no_dash (n : ℕ) : '-' ∉ natToDigits n := by
  intro hm
  have h := (natToDigits_all_digits n '-' hm).1
  exact absurd h (by decide)

theorem pad2_all_digits (n : ℕ) :
    ∀ c ∈ pad2 n, 48 ≤ c.toNat ∧ c.toNat ≤ 57 := by
  unfold pad2
  by_cases h : n < 10
  · rw [if_pos h]
    intro c hc
    rcases List.mem_cons.mp hc with h1 | h2
    · subst h1
      exact ⟨by decide, by decide⟩
    · exact natToDigits_all_digits n c h2
  · rw [if_neg h]
    exact natToDigits_all_digits n

theorem pad2_no_dash (n : ℕ) : '-' ∉ pad2 n := by
  intro hm
  have h := (pad2_all_digits n '-' hm).1
  exact absurd h (by decide)

theorem pad2_length {n : ℕ} (h : n < 100) : (pad2 n).length = 2 := by
  unfold pad2
  by_cases h10 : n < 10
  · rw [if_pos h10]
    simp only [List.length_cons]
    have h1 : (natToDigits n).length ≤ 1 := natToDigits_length_le n 1 (by simpa using h10) le_rfl
    have h2 := natToDigits_length_pos n
    omega
  · rw [if_neg h10]
    unfold natToDigits
    rw [if_neg h10]
    simp only [List.length_append, List.length_singleton]
    have h1 : (natToDigits (n / 10)).length ≤ 1 := by
      apply natToDigits_length_le _ 1 _ le_rfl
      simp only [pow_one]
      omega
    have h2 := natToDigits_length_pos (n / 10)
    omega

theorem pad2_val (n : ℕ) : digitsVal (pad2 n) = n := by
  unfold pad2
  by_cases h : n < 10
  · rw [if_pos h]
    have he : digitsVal ('0' :: natToDigits n) = digitsVal (['0'] ++ natToDigits n) := rfl
    rw [he, digitsVal_append, digitsVal_natToDigits]
    have h0 : digitsVal ['0'] = 0 := by decide
    rw [h0]
    simp
  · rw [if_neg h]
    exact digitsVal_natToDigits n

theorem list_all_charDigit_of (l : List Char)
    (h : ∀ c ∈ l, 48 ≤ c.toNat ∧ c.toNat ≤ 57) : l.all charDigit = true := by
  rw [List.all_eq_true]
  intro c hc
  exact charDigit_of (h c hc).1 (h c hc).2

end Ulx

theorem pyRound_nonneg {q : ℚ} (h : 0 ≤ q) : 0 ≤ pyRound q := by
  have hf : (0 : ℤ) ≤ ⌊q⌋ := by positivity
  unfold pyRound
  split_ifs <;> omega

namespace Ulx

theorem dms2rad_three (d m s : ℕ) (hd : d < 1000) (hm : m < 60) (hs : s < 60) :
    dms2rad (natToDigits d ++ '-' :: (pad2 m ++ '-' :: pad2 s)) =
      some (((3600 * d + 60 * m + s : ℕ) : ℚ) / 648000) := by
  have hsplit : splitChar '-' (natToDigits d ++ '-' :: (pad2 m ++ '-' :: pad2 s)) =
      [natToDigits d, pad2 m, pad2 s] := by
    rw [splitChar_append_sep _ (natToDigits_no_dash d),
        splitChar_append_sep _ (pad2_no_dash m),
        splitChar_no_sep (pad2_no_dash s)]
  have hvalid : dmsValid (natToDigits d ++ '-' :: (pad2 m ++ '-' :: pad2 s)) = true := by
    unfold dmsValid
    rw [hsplit]
    have hlen1 : (natToDigits d).length ≤ 3 :=
      natToDigits_length_le d 3 (by norm_num; omega) (by omega)
    have hlen1p := natToDigits_length_pos d
    have hlenm := pad2_length (show m < 100 by omega)
    have hlens := pad2_length (show s < 100 by omega)
    simp [list_all_charDigit_of _ (natToDigits_all_digits d),
      list_all_charDigit_of _ (pad2_all_digits m),
      list_all_charDigit_of _ (pad2_all_digits s),
      hlen1, hlen1p, hlenm, hlens]
  unfold dms2rad
  rw [if_pos hvalid, hsplit]
  simp only [List.map_cons, List.map_nil, digitsVal_natToDigits, pad2_val, dmsAccum]
  push_cast
  rw [Option.some_inj]
  field_simp
  ring

theorem rad2dms_of_nonneg {q : ℚ} (h : ¬ q < 0) :
    rad2dms q = natToDigits ((pyRound (|q| * 648000)).toNat / 60 / 60) ++
      '-' :: (pad2 (((pyRound (|q| * 648000)).toNat / 60) % 60) ++
        '-' :: pad2 ((pyRound (|q| * 648000)).toNat % 60)) := by
  unfold rad2dms
  rw [if_neg h]
  simp

theorem rad2dms_of_neg {q : ℚ} (h : q < 0) :
    rad2dms q = '-' :: (natToDigits ((pyRound (|q| * 648000)).toNat / 60 / 60) ++
      '-' :: (pad2 (((pyRound (|q| * 648000)).toNat / 60) % 60) ++
        '-' :: pad2 ((pyRound (|q| * 648000)).toNat % 60))) := by
  unfold rad2dms
  rw [if_pos h]
  simp

theorem dms2rad_leading_dash (rest : List Char) :
    dms2rad ('-' :: rest) = none := by
  have hsplit : splitChar '-' ('-' :: rest) = [] :: splitChar '-' rest := by
    simp [splitChar]
  unfold dms2rad
  rw [if_neg]
  unfold dmsValid
  rw [hsplit]
  rcases hr : splitChar '-' rest with _ | ⟨g1, gs⟩
  · exact absurd hr (splitChar_ne_nil '-' rest)
  · rcases gs with _ | ⟨g2, gs2⟩
    · simp
    · rcases gs2 with _ | ⟨g3, gs3⟩
      · simp
      · simp

theorem dms_roundtrip_nonneg (q : ℚ) (h0 : 0 ≤ q)
    (hb : pyRound (q * 648000) < 3600000) :
    dms2rad (rad2dms q) = some ((pyRound (q * 648000) : ℚ) / 648000) := by
  have habs : |q| = q := abs_of_nonneg h0
  have hs0 : (0 : ℤ) ≤ pyRound (q * 648000) := pyRound_nonneg (by positivity)
  set s : ℤ := pyRound (q * 648000) with hsdef
  set secs : ℕ := s.toNat with hsecs
  have hcast : (secs : ℤ) = s := Int.toNat_of_nonneg hs0
  have hub : secs < 3600000 := by omega
  rw [rad2dms_of_nonneg (not_lt.mpr h0), habs, ← hsdef, ← hsecs]
  rw [dms2rad_three (secs / 60 / 60) (secs / 60 % 60) (secs % 60)
      (by omega) (Nat.mod_lt _ (by omega)) (Nat.mod_lt _ (by omega))]
  congr 1
  have hval : 3600 * (secs / 60 / 60) + 60 * (secs / 60 % 60) + secs % 60 = secs := by
    omega
  rw [hval]
  rw [show ((secs : ℚ)) = ((secs : ℤ) : ℚ) by push_cast; ring, hcast]

theorem dms_roundtrip_neg (q : ℚ) (h0 : q < 0) :
    dms2rad (rad2dms q) = none := by
  rw [rad2dms_of_neg h0]
  exact dms2rad_leading_dash _

end Ulx

theorem pyRound_intCast (n : ℤ) : pyRound ((n : ℚ)) = n := by
  unfold pyRound
  rw [Int.floor_intCast]
  norm_num

/-! ### Claim C6 — DMS round trip -/

/-- Claim C6, counterexample: for the negative angle −1° (π-units −1/180)
the formatter emits `-1-00-00`, and the parser raises a format error
(`none`) instead of returning the angle to the nearest arcsecond, so the
claimed round trip `parseDMS (formatDMS a) = a` fails for negative `a`:
the digit-group pattern of `dms2rad` accepts no leading sign. -/
theorem C6_dms_roundtrip_counterexample :
    Ulx.rad2dms (-(1/180)) = ['-', '1', '-', '0', '0', '-', '0', '0'] ∧
      Ulx.dms2rad (Ulx.rad2dms (-(1/180))) = none := by
  have hneg : (-(1/180) : ℚ) < 0 := by norm_num
  have habs : |(-(1/180) : ℚ)| = 1/180 := by
    rw [abs_neg, abs_of_nonneg (by norm_num : (0:ℚ) ≤ 1/180)]
  constructor
  · rw [Ulx.rad2dms_of_neg hneg, habs]
    rw [show ((1/180 : ℚ) * 648000) = ((3600 : ℤ) : ℚ) by norm_num, pyRound_intCast]
    rw [show Int.toNat 3600 = 3600 from rfl]
    rw [show (3600 / 60 / 60 : ℕ) = 1 from rfl, show (3600 / 60 % 60 : ℕ) = 0 from rfl]
    simp [natToDigits, pad2, digitChar10]
  · rw [Ulx.rad2dms_of_neg hneg]
    exact Ulx.dms2rad_leading_dash _

/-- Claim C6 (amended): for every nonnegative angle whose rounded
arcsecond count stays below 1000 degrees, parsing the DMS string produced
by formatting round-trips exactly to the nearest arcsecond (`pyRound` of
the arcsecond value, divided back); for every negative angle the formatter
emits a leading sign but the parser rejects the string with a format
error. -/
theorem C6_dms_roundtrip (q : ℚ) :
    (0 ≤ q → pyRound (q * 648000) < 3600000 →
      Ulx.dms2rad (Ulx.rad2dms q) = some ((pyRound (q * 648000) : ℚ) / 648000)) ∧
    (q < 0 → Ulx.dms2rad (Ulx.rad2dms q) = none) :=
  ⟨fun h0 hb => Ulx.dms_roundtrip_nonneg q h0 hb, fun h0 => Ulx.dms_roundtrip_neg q h0⟩

/-- Witness for C6: the round trip evaluated at +1° and the rejection
evaluated at −1°. -/
theorem C6_dms_roundtrip_witness :
    ((0 : ℚ) ≤ 1/180 ∧ pyRound ((1/180) * 648000) < 3600000 ∧
      Ulx.dms2rad (Ulx.rad2dms (1/180)) = some ((pyRound ((1/180) * 648000) : ℚ) / 648000)) ∧
    ((-(1/180) : ℚ) < 0 ∧ Ulx.dms2rad (Ulx.rad2dms (-(1/180))) = none) := by
  have hp : pyRound ((1/180 : ℚ) * 648000) < 3600000 := by
    rw [show ((1/180 : ℚ) * 648000) = ((3600 : ℤ) : ℚ) by norm_num, pyRound_intCast]
    norm_num
  exact ⟨⟨by norm_num, hp, (C6_dms_roundtrip (1/180)).1 (by norm_num) hp⟩,
    ⟨by norm_num, (C6_dms_roundtrip (-(1/180))).2 (by norm_num)⟩⟩

/-! ### Claim C7 — NMEA DDMM.mmmm conversion -/

/-- Claim C7, counterexample: at the negative NMEA value −130.5 the code's
conversion (`int` truncation toward zero) differs from the claimed
`floor`-based formula: the code yields −(1° + 30.5′) = −181/120 · π/180
while the floor formula yields −101/120 · π/180. -/
theorem C7_dm2rad_counterexample :
    Ulx.dm2rad (-261/2) ≠ Ulx.dm2radFloorSpec (-261/2) := by
  have ht : ratTrunc ((-261/2 : ℚ) / 100) = -1 := by
    unfold ratTrunc
    rw [if_pos (by norm_num)]
    rw [show (-((-261/2 : ℚ) / 100)) = 261/200 by norm_num]
    rw [show ⌊(261/200 : ℚ)⌋ = 1 from by
      rw [Int.floor_eq_iff]
      norm_num]
  have hf : ⌊(-261/2 : ℚ) / 100⌋ = -2 := by
    rw [Int.floor_eq_iff]
    norm_num
  simp only [Ulx.dm2rad, Ulx.dm2radFloorSpec, ht, hf]
  norm_num

/-- Claim C7 (amended): for every numeric NMEA angle value `x`, the
conversion equals `radians(trunc(x/100) + (x − 100·trunc(x/100))/60)` with
truncation toward zero (Python `int`), which agrees with the claimed
`floor`-based formula exactly when `x` is nonnegative. -/
theorem C7_dm2rad (x : ℚ) :
    Ulx.dm2rad x =
      ((ratTrunc (x/100) : ℚ) + (x - 100 * (ratTrunc (x/100) : ℚ)) / 60) / 180 ∧
    (0 ≤ x → Ulx.dm2rad x = Ulx.dm2radFloorSpec x) := by
  constructor
  · simp only [Ulx.dm2rad]
    ring
  · intro h0
    simp only [Ulx.dm2rad, Ulx.dm2radFloorSpec]
    rw [ratTrunc_of_nonneg (by positivity)]
    ring

/-- Witness for C7: the conversion evaluated at the NMEA value 12102.482
(121°2.482′). -/
theorem C7_dm2rad_witness :
    (Ulx.dm2rad (12102482/1000) =
      ((ratTrunc ((12102482/1000)/100) : ℚ) +
        ((12102482/1000 : ℚ) - 100 * (ratTrunc ((12102482/1000 : ℚ)/100) : ℚ)) / 60) / 180) ∧
    (0 : ℚ) ≤ 12102482/1000 ∧
    Ulx.dm2rad (12102482/1000) = Ulx.dm2radFloorSpec (12102482/1000) :=
  ⟨(C7_dm2rad (12102482/1000)).1, by norm_num,
    (C7_dm2rad (12102482/1000)).2 (by norm_num)⟩

/-! ### Angle arithmetic operators (src/ulyxes/__init__.py:209-265)

Each Python dunder operator is embedded as a function of the internal radian
values (π-units) of the two operands.  Its result records the value of the
returned Angle object, the (possibly updated) internal value of the left
operand after the call, and whether the returned object is the very `self`
object of the left operand (`retIsSelf = true`) or a freshly constructed
Angle (`retIsSelf = false`). -/

structure OpResult where
  ret : ℚ
  self : ℚ
  retIsSelf : Bool
  deriving DecidableEq, Repr

namespace Ulx

/-- Embeds `Angle.__add__` (src/ulyxes/__init__.py:215): returns
`Angle(self._value + other._value)`, a fresh object; `self` unchanged. -/
def angleAdd (a b : ℚ) : OpResult := ⟨a + b, a, false⟩

/-- Embeds `Angle.__iadd__` (src/ulyxes/__init__.py:221):
`self._value += other._value; return self` — mutates the left operand in
place and returns the same object. -/
def angleIadd (a b : ℚ) : OpResult := ⟨a + b, a + b, true⟩

/-- Embeds `Angle.__sub__` (src/ulyxes/__init__.py:228): fresh
`Angle(self._value - other._value)`; `self` unchanged. -/
def angleSub (a b : ℚ) : OpResult := ⟨a - b, a, false⟩

/-- Embeds `Angle.__isub__` (src/ulyxes/__init__.py:234):
`self._value -= other._value; return self`. -/
def angleIsub (a b : ℚ) : OpResult := ⟨a - b, a - b, true⟩

/-- Embeds `Angle.__mul__` (src/ulyxes/__init__.py:241): fresh
`Angle(self._value * other)` for a plain-number `other`; `self` unchanged. -/
def angleMul (a : ℚ) (k : ℚ) : OpResult := ⟨a * k, a, false⟩

/-- Embeds `Angle.__imul__` (src/ulyxes/__init__.py:247):
`self._value *= other; return self`. -/
def angleImul (a : ℚ) (k : ℚ) : OpResult := ⟨a * k, a * k, true⟩

/-- Embeds `Angle.__truediv__` (src/ulyxes/__init__.py:254): fresh
`Angle(self._value / other)`; `self` unchanged. -/
def angleDiv (a : ℚ) (k : ℚ) : OpResult := ⟨a / k, a, false⟩

/-- Embeds `Angle.__itruediv__` (src/ulyxes/__init__.py:260):
`self._value /= other; return self`. -/
def angleIdiv (a : ℚ) (k : ℚ) : OpResult := ⟨a / k, a / k, true⟩

end Ulx

/-! ### Claim C8 — immutability of Angle arithmetic -/

/-- Claim C8, counterexample: the augmented assignment `a += b` at
`a = 1, b = 1` mutates the left operand (its internal value becomes 2) and
returns the very same object rather than a new Angle, contradicting the
claim that every arithmetic operation, augmented-assignment forms
included, returns a new AngleValue and leaves its operands unchanged. -/
theorem C8_immutability_counterexample :
    (Ulx.angleIadd 1 1).self ≠ 1 ∧ (Ulx.angleIadd 1 1).retIsSelf = true := by
  constructor
  · norm_num [Ulx.angleIadd]
  · rfl

/-- Claim C8 (amended): the plain binary operators `+`, `−`, scalar `×`,
scalar `÷` each return a fresh AngleValue and leave the left operand's
internal radian value unchanged, while the augmented-assignment operators
`+=`, `−=`, `×=`, `÷=` update the left operand's internal value in place
and return the same (not a new) object. -/
theorem C8_immutability (a b k : ℚ) :
    (Ulx.angleAdd a b = ⟨a + b, a, false⟩ ∧
     Ulx.angleSub a b = ⟨a - b, a, false⟩ ∧
     Ulx.angleMul a k = ⟨a * k, a, false⟩ ∧
     Ulx.angleDiv a k = ⟨a / k, a, false⟩) ∧
    (Ulx.angleIadd a b = ⟨a + b, a + b, true⟩ ∧
     Ulx.angleIsub a b = ⟨a - b, a - b, true⟩ ∧
     Ulx.angleImul a k = ⟨a * k, a * k, true⟩ ∧
     Ulx.angleIdiv a k = ⟨a / k, a / k, true⟩) :=
  ⟨⟨rfl, rfl, rfl, rfl⟩, ⟨rfl, rfl, rfl, rfl⟩⟩

/-! ### TotalStation session (src/pyapi/totalstation.py)

A decoded reply of `_process` is a Measurement: a partial mapping from
field names to values.  Only the fields the claims touch are carried
(`distance`, `hz`, `v`); a `none` field is an absent dictionary key. -/

structure Meas where
  distance : Option ℚ
  hz : Option ℚ
  v : Option ℚ
  deriving DecidableEq, Repr

/-- The check `'distance' in meas` of the source. -/
def hasDistance (m : Meas) : Bool := m.distance.isSome

namespace TS

/-- Retry loop of `TotalStation.GetMeasure` (src/pyapi/totalstation.py:259):
`i = 0; meas = self._process(msg); while 'distance' not in meas and i < 20:
i += 1; time.sleep(2); meas = self._process(msg)`.  The environment is the
sequence `resp` of successive `_process` results, indexed by attempt number
(starting at 1); at loop counter `i` the current `meas` is `resp (i+1)`, so
the re-issued decode of the next iteration is `resp (i+2)`.  The fixed
2-second delay (`time.sleep(2)`) has no observable effect in the embedding. -/
def gmLoop (resp : ℕ → Meas) (meas : Meas) (i : ℕ) : Meas × ℕ :=
  if hasDistance meas ∨ 20 ≤ i then (meas, i)
  else gmLoop resp (resp (i + 2)) (i + 1)
termination_by 20 - i
decreasing_by
  omega

/-- Embeds `TotalStation.GetMeasure`: the returned Measurement together
with the total number of `_process` calls consumed (initial attempt plus
retries). -/
def GetMeasure (resp : ℕ → Meas) : Meas × ℕ :=
  let r := gmLoop resp (resp 1) 0
  (r.1, r.2 + 1)

theorem gmLoop_exit (resp : ℕ → Meas) (meas : Meas) (i : ℕ)
    (h : hasDistance meas ∨ 20 ≤ i) : gmLoop resp meas i = (meas, i) := by
  unfold gmLoop
  rw [if_pos h]

theorem gmLoop_advance (resp : ℕ → Meas) (meas : Meas) (i : ℕ)
    (h1 : hasDistance meas = false) (h2 : i < 20) :
    gmLoop resp meas i = gmLoop resp (resp (i + 2)) (i + 1) := by
  have hn : ¬(hasDistance meas ∨ 20 ≤ i) := by
    rintro (hd | hi)
    · simp [h1] at hd
    · omega
  conv_lhs => unfold gmLoop
  rw [if_neg hn]

theorem gmLoop_snd_le (resp : ℕ → Meas) (k : ℕ) :
    ∀ i meas, 20 - i ≤ k → i ≤ 20 → (gmLoop resp meas i).2 ≤ 20 := by
  induction k with
  | zero =>
      intro i meas hk hi
      have hi20 : i = 20 := by omega
      subst hi20
      rw [gmLoop_exit resp meas 20 (Or.inr le_rfl)]
  | succ k ih =>
      intro i meas hk hi
      by_cases hd : hasDistance meas ∨ 20 ≤ i
      · rw [gmLoop_exit resp meas i hd]
        exact hi
      · push_neg at hd
        have h1 : hasDistance meas = false := by
          rcases hd with ⟨hd1, _⟩
          simpa using hd1
        have h2 : i < 20 := by omega
        rw [gmLoop_advance resp meas i h1 h2]
        exact ih (i + 1) (resp (i + 2)) (by omega) (by omega)

theorem gmLoop_all_fail (resp : ℕ → Meas)
    (hall : ∀ n, hasDistance (resp n) = false) (k : ℕ) :
    ∀ i, i + k = 20 → gmLoop resp (resp (i + 1)) i = (resp 21, 20) := by
  induction k with
  | zero =>
      intro i hi
      have hi20 : i = 20 := by omega
      subst hi20
      exact gmLoop_exit resp (resp 21) 20 (Or.inr le_rfl)
  | succ k ih =>
      intro i hi
      rw [gmLoop_advance resp (resp (i + 1)) i (hall (i + 1)) (by omega)]
      exact ih (i + 1) (by omega)

end TS

/-! ### Claim C3 — poll-until-present distance read -/

/-- Claim C3: `GetMeasure` consumes at most 21 decodes in total (the
initial decode plus an attempt ceiling of 20 retries); if `distance` is
absent from the first four decodes and present in the fifth, it stops after
exactly 5 attempts and returns that fifth Measurement; if `distance` never
appears, it performs the initial decode plus all 20 retries and returns the
last (21st), possibly incomplete, Measurement without raising. -/
theorem C3_getMeasure_poll (resp : ℕ → Meas) :
    (TS.GetMeasure resp).2 ≤ 21 ∧
    ((∀ n, 1 ≤ n → n ≤ 4 → hasDistance (resp n) = false) →
      hasDistance (resp 5) →
      TS.GetMeasure resp = (resp 5, 5)) ∧
    ((∀ n, hasDistance (resp n) = false) →
      TS.GetMeasure resp = (resp 21, 21)) := by
  refine ⟨?_, ?_, ?_⟩
  · have h := TS.gmLoop_snd_le resp 20 0 (resp 1) (by omega) (by omega)
    simp only [TS.GetMeasure]
    omega
  · intro h4 h5
    simp only [TS.GetMeasure]
    rw [TS.gmLoop_advance resp (resp 1) 0 (h4 1 (by omega) (by omega)) (by omega)]
    rw [TS.gmLoop_advance resp (resp 2) 1 (h4 2 (by omega) (by omega)) (by omega)]
    rw [TS.gmLoop_advance resp (resp 3) 2 (h4 3 (by omega) (by omega)) (by omega)]
    rw [TS.gmLoop_advance resp (resp 4) 3 (h4 4 (by omega) (by omega)) (by omega)]
    rw [TS.gmLoop_exit resp (resp 5) 4 (Or.inl h5)]
  · intro hall
    simp only [TS.GetMeasure]
    rw [show (1 : ℕ) = 0 + 1 from rfl, TS.gmLoop_all_fail resp hall 20 0 (by omega)]

/-- Witness for C3: a transport that first yields the `distance` field on
the fifth decode consumes exactly 5 attempts; one that never yields it
consumes all 21 decodes and returns the last reply. -/
theorem C3_getMeasure_poll_witness :
    (TS.GetMeasure (fun n => if n = 5 then ⟨some 42, none, none⟩ else ⟨none, none, none⟩) =
      (⟨some 42, none, none⟩, 5)) ∧
    (TS.GetMeasure (fun _ => ⟨none, none, none⟩) = (⟨none, none, none⟩, 21)) := by
  constructor
  · have h := (C3_getMeasure_poll
      (fun n => if n = 5 then ⟨some 42, none, none⟩ else ⟨none, none, none⟩)).2.1
      (by intro n h1 h2; have : n ≠ 5 := by omega
          simp [this, hasDistance])
      (by simp [hasDistance])
    simpa using h
  · have h := (C3_getMeasure_poll (fun _ => (⟨none, none, none⟩ : Meas))).2.2
      (by intro n; simp [hasDistance])
    simpa using h

/-! ### Derived change face and relative move -/

/-- Outcome of `TotalStation.ChangeFace`: either the native change-face
command of the MeasureUnit is processed, or a synthesized absolute `Move`
to the given target angles is issued. -/
inductive FaceAction where
  | native : FaceAction
  | move (hz v : ℚ) : FaceAction
  deriving DecidableEq, Repr

namespace TS

/-- Embeds `TotalStation.ChangeFace` (src/pyapi/totalstation.py:301): when
`ChangeFaceMsg()` returns `None`, read the current angles and issue
`Move(hz + Angle(180, DEG), Angle(360, DEG) - v)`; `Move` normalises both
targets into [0, 2π) via `Positive()` before sending.  `hz` and `v` are the
current angles obtained from `GetAngles`. -/
def ChangeFace (nativeMsg : Option String) (hz v : ℚ) : FaceAction :=
  match nativeMsg with
  | some _ => .native
  | none => .move (posNorm (hz + Ulx.deg2rad 180)) (posNorm (Ulx.deg2rad 360 - v))

/-- Embeds `TotalStation.MoveRel` (src/pyapi/totalstation.py:438): process
`GetAnglesMsg`; only if both `hz` and `v` are present in the decoded reply
is `Move(res[hz] + hz_rel, res[v] + v_rel)` issued, else the call returns
`None` without issuing any move.  `some (hz, v)` is an issued move command
with its (normalised) absolute target. -/
def MoveRel (res : Meas) (hzRel vRel : ℚ) : Option (ℚ × ℚ) :=
  match res.hz, res.v with
  | some hz, some v => some (posNorm (hz + hzRel), posNorm (v + vRel))
  | _, _ => none

end TS

/-! ### Claim C2 — derived change face -/

/-- Shared evaluation: the derived change-face target at hz = 50 gon,
v = 80 gon is (250 gon, 320 gon). -/
theorem changeFace_at_50_80_gon :
    TS.ChangeFace none (Ulx.gon2rad 50) (Ulx.gon2rad 80) =
      .move (Ulx.gon2rad 250) (Ulx.gon2rad 320) := by
  show FaceAction.move (posNorm (Ulx.gon2rad 50 + Ulx.deg2rad 180))
      (posNorm (Ulx.deg2rad 360 - Ulx.gon2rad 80)) = _
  have h1 : (Ulx.gon2rad 50 + Ulx.deg2rad 180 : ℚ) = 5/4 := by
    norm_num [Ulx.gon2rad, Ulx.deg2rad]
  have h2 : (Ulx.deg2rad 360 - Ulx.gon2rad 80 : ℚ) = 8/5 := by
    norm_num [Ulx.gon2rad, Ulx.deg2rad]
  rw [h1, h2]
  have hf1 : ⌊(5/4 : ℚ) / 2⌋ = 0 := by
    rw [Int.floor_eq_iff]
    norm_num
  have hf2 : ⌊(8/5 : ℚ) / 2⌋ = 0 := by
    rw [Int.floor_eq_iff]
    norm_num
  simp only [posNorm, hf1, hf2]
  norm_num [Ulx.gon2rad]

/-- Claim C2, counterexample: at current angles hz = 50 gon, v = 80 gon the
synthesized move target is hz = 250 gon (50 gon + 180° = 50 gon + 200 gon),
not the claimed 230 gon; the vertical target 320 gon is as claimed. -/
theorem C2_changeface_counterexample :
    TS.ChangeFace none (Ulx.gon2rad 50) (Ulx.gon2rad 80) =
      .move (Ulx.gon2rad 250) (Ulx.gon2rad 320) ∧
    Ulx.gon2rad 250 ≠ Ulx.gon2rad 230 := by
  refine ⟨changeFace_at_50_80_gon, ?_⟩
  norm_num [Ulx.gon2rad]

/-- Claim C2 (amended): with no native change-face command, the session
reads the current angles and issues an absolute move to
(hz + 180°, 360° − v) (each normalised into [0, 2π) by `Move`); in
particular for hz = 50 gon and v = 80 gon the synthesized target is
hz = 250 gon and v = 320 gon. -/
theorem C2_changeface :
    (∀ hz v : ℚ, TS.ChangeFace none hz v =
      .move (posNorm (hz + Ulx.deg2rad 180)) (posNorm (Ulx.deg2rad 360 - v))) ∧
    TS.ChangeFace none (Ulx.gon2rad 50) (Ulx.gon2rad 80) =
      .move (Ulx.gon2rad 250) (Ulx.gon2rad 320) :=
  ⟨fun _ _ => rfl, changeFace_at_50_80_gon⟩

/-! ### Claim C10 — relative move with a failed angle read -/

/-- Claim C10: whenever the decoded angle reply of the preceding
`GetAnglesMsg` read lacks the `hz` field or the `v` field, `MoveRel`
issues no move command at all and returns `None`, so a failed angle read
never produces a move to a partially-defined direction. -/
theorem C10_moverel_guard (res : Meas) (hzRel vRel : ℚ)
    (h : res.hz = none ∨ res.v = none) :
    TS.MoveRel res hzRel vRel = none := by
  unfold TS.MoveRel
  rcases res with ⟨d, hz, v⟩
  rcases h with h | h <;> simp only at h <;> subst h
  · rfl
  · cases hz <;> rfl

/-- Witness for C10: a reply carrying only the vertical angle produces no
move. -/
theorem C10_moverel_guard_witness :
    ((⟨none, none, some 1⟩ : Meas).hz = none ∨ (⟨none, none, some 1⟩ : Meas).v = none) ∧
    TS.MoveRel ⟨none, none, some 1⟩ (1/2) (1/2) = none :=
  ⟨Or.inl rfl, C10_moverel_guard ⟨none, none, some 1⟩ (1/2) (1/2) (Or.inl rfl)⟩

/-! ### Continuous tracking loop (src/pyapps/measuretoprism.py)

Per-cycle record block and the mode-5 stop detector.  `math.sin`/`math.cos`
are abstracted by parameters `sinR cosR : ℚ → ℚ` (the float routines applied
to the radian value, i.e. to π times the π-unit representation). -/

/-- A record handed to the Writer: the cycle's measurement dictionary
augmented with the derived planar coordinates. -/
structure Rec where
  meas : Meas
  east : ℚ
  north : ℚ
  elev : ℚ
  deriving DecidableEq, Repr

namespace MTP

/-- Embeds the per-cycle record block (src/pyapps/measuretoprism.py:192):
`slopeDist` is updated when the cycle's measurement carries `distance`
(otherwise the previous value persists); if both `hz` and `v` are present,
`east = slopeDist*sin(v)*sin(hz)`, `north = slopeDist*sin(v)*cos(hz)`,
`elev = slopeDist*cos(v)` are stored into the measurement and the record is
written; otherwise "Some measurement data(s) are missing..." is printed and
nothing is written.  Returns the updated `slopeDist` and the written record,
if any. -/
def trackRecord (sinR cosR : ℚ → ℚ) (slopeDist : ℚ) (m : Meas) : ℚ × Option Rec :=
  let sd := m.distance.getD slopeDist
  match m.hz, m.v with
  | some hz, some v =>
      (sd, some ⟨m, sd * sinR v * sinR hz, sd * sinR v * cosR hz, sd * cosR v⟩)
  | _, _ => (sd, none)

/-- The angular threshold of the mode-5 detector
(src/pyapps/measuretoprism.py:135): `limit = Angle('0-03-00', 'DMS')`,
three arcminutes. -/
def limitM5 : ℚ := (Ulx.dms2rad "0-03-00".toList).getD 0

/-- State of the mode-5 stop detector: the `moving` flag, the counter `n`
of in-threshold cycles, the reference angles `prev_hz`/`prev_v` against
which a moving cycle is compared, and the angles `last_hz`/`last_v` of the
last recorded point. -/
structure M5State where
  moving : Bool
  n : ℕ
  prevHz : ℚ
  prevV : ℚ
  lastHz : ℚ
  lastV : ℚ
  deriving DecidableEq, Repr

/-- Environment of one mode-5 cycle: the angle-only reading of `GetAngles`
(`hz`, `v`), and the full measurement (`stopHz`, `stopV`, `stopDist`) that
`Measure();GetMeasure()` would return if the detector triggers a full
distance measurement this cycle.  (The source indexes that measurement's
`hz`/`v`/`distance` unconditionally, so the embedding assumes all three
fields present.) -/
structure M5Input where
  hz : ℚ
  v : ℚ
  stopHz : ℚ
  stopV : ℚ
  stopDist : ℚ
  deriving DecidableEq, Repr

/-- Embeds one iteration of the mode-5 loop body
(src/pyapps/measuretoprism.py:162-211).  While `moving`, the current angles
are compared against `prev_hz`/`prev_v`; if both deltas are strictly below
`limit`, `n` is incremented and, while `n <= 3`, the cycle just continues
(`prev` is *not* updated in this branch); on the fourth such cycle
(`n = 4 > 3`) a full measurement is taken, `moving` becomes false,
`last`/`prev` are set to the measured angles, `n` resets to 0 and the
record block runs on the full measurement.  If a delta reaches `limit`,
`prev` is updated to the current angles and the cycle continues (`n` is
*not* reset).  While stopped, the current angles are compared against
`last_hz`/`last_v`; if either delta is at least `limit`, `moving` becomes
true; in either case the cycle continues without a record. -/
def mode5cycle (sinR cosR : ℚ → ℚ) (st : M5State) (sd : ℚ) (inp : M5Input) :
    M5State × ℚ × Option Rec :=
  if st.moving then
    if |st.prevHz - inp.hz| < limitM5 ∧ |st.prevV - inp.v| < limitM5 then
      if st.n + 1 ≤ 3 then
        (⟨true, st.n + 1, st.prevHz, st.prevV, st.lastHz, st.lastV⟩, sd, none)
      else
        let m : Meas := ⟨some inp.stopDist, some inp.stopHz, some inp.stopV⟩
        let r := trackRecord sinR cosR sd m
        (⟨false, 0, inp.stopHz, inp.stopV, inp.stopHz, inp.stopV⟩, r.1, r.2)
    else
      (⟨true, st.n, inp.hz, inp.v, st.lastHz, st.lastV⟩, sd, none)
  else
    if limitM5 ≤ |st.lastHz - inp.hz| ∨ limitM5 ≤ |st.lastV - inp.v| then
      (⟨true, st.n, st.prevHz, st.prevV, st.lastHz, st.lastV⟩, sd, none)
    else
      (st, sd, none)

/-- Iterated mode-5 cycles, collecting the written records in order. -/
def mode5run (sinR cosR : ℚ → ℚ) (st : M5State) (sd : ℚ) :
    List M5Input → M5State × ℚ × List Rec
  | [] => (st, sd, [])
  | inp :: rest =>
      let c := mode5cycle sinR cosR st sd inp
      let r := mode5run sinR cosR c.1 c.2.1 rest
      (r.1, r.2.1, c.2.2.toList ++ r.2.2)

end MTP

namespace MTP

theorem limitM5_val : limitM5 = 1/3600 := by
  unfold limitM5
  have hstr : "0-03-00".toList = natToDigits 0 ++ '-' :: (pad2 3 ++ '-' :: pad2 0) := by
    simp [natToDigits, pad2, digitChar10]
  rw [hstr, Ulx.dms2rad_three 0 3 0 (by omega) (by omega) (by omega)]
  norm_num

theorem limitM5_pos : 0 < limitM5 := by
  rw [limitM5_val]
  norm_num

theorem mode5cycle_count (sinR cosR : ℚ → ℚ) (st : M5State) (sd : ℚ) (inp : M5Input)
    (hm : st.moving = true)
    (hd : |st.prevHz - inp.hz| < limitM5 ∧ |st.prevV - inp.v| < limitM5)
    (hn : st.n + 1 ≤ 3) :
    mode5cycle sinR cosR st sd inp =
      (⟨true, st.n + 1, st.prevHz, st.prevV, st.lastHz, st.lastV⟩, sd, none) := by
  unfold mode5cycle
  rw [hm, if_pos rfl, if_pos hd, if_pos hn]

theorem mode5cycle_stop (sinR cosR : ℚ → ℚ) (st : M5State) (sd : ℚ) (inp : M5Input)
    (hm : st.moving = true)
    (hd : |st.prevHz - inp.hz| < limitM5 ∧ |st.prevV - inp.v| < limitM5)
    (hn : ¬ st.n + 1 ≤ 3) :
    mode5cycle sinR cosR st sd inp =
      (⟨false, 0, inp.stopHz, inp.stopV, inp.stopHz, inp.stopV⟩, inp.stopDist,
        some ⟨⟨some inp.stopDist, some inp.stopHz, some inp.stopV⟩,
          inp.stopDist * sinR inp.stopV * sinR inp.stopHz,
          inp.stopDist * sinR inp.stopV * cosR inp.stopHz,
          inp.stopDist * cosR inp.stopV⟩) := by
  unfold mode5cycle
  rw [hm, if_pos rfl, if_pos hd, if_neg hn]
  rfl

theorem mode5cycle_wake (sinR cosR : ℚ → ℚ) (st : M5State) (sd : ℚ) (inp : M5Input)
    (hm : st.moving = false)
    (hd : limitM5 ≤ |st.lastHz - inp.hz| ∨ limitM5 ≤ |st.lastV - inp.v|) :
    mode5cycle sinR cosR st sd inp =
      (⟨true, st.n, st.prevHz, st.prevV, st.lastHz, st.lastV⟩, sd, none) := by
  unfold mode5cycle
  rw [hm]
  rw [if_neg (by simp), if_pos hd]

end MTP

/-! ### Claim C5 — per-cycle coordinate derivation and recording -/

/-- Claim C5, counterexample: a cycle whose measurement carries both angles
but no distance still writes a record (using the slope distance carried
over from earlier cycles, here 5), contradicting the claim that a record is
handed to the Writer only when the distance is available in that cycle's
measurement. -/
theorem C5_record_counterexample :
    ((⟨none, some 0, some 0⟩ : Meas).distance = none) ∧
    MTP.trackRecord (fun q => q) (fun q => q) 5 ⟨none, some 0, some 0⟩ =
      (5, some ⟨⟨none, some 0, some 0⟩, 0, 0, 0⟩) := by
  refine ⟨rfl, ?_⟩
  unfold MTP.trackRecord
  norm_num

/-- Claim C5 (amended): in every cycle, the planar coordinates
east = d·sin(v)·sin(hz), north = d·sin(v)·cos(hz), elev = d·cos(v) are
derived and the record is written exactly when both angles are present in
that cycle's measurement, where d is the cycle's distance if present and
otherwise the most recently seen slope distance (initially 0); when either
angle is missing, missing data is reported and no record is written, though
a present distance still updates the carried slope distance. -/
theorem C5_record_step (sinR cosR : ℚ → ℚ) (sd : ℚ) :
    (∀ (d : Option ℚ) (hz v : ℚ),
      MTP.trackRecord sinR cosR sd ⟨d, some hz, some v⟩ =
        (d.getD sd, some ⟨⟨d, some hz, some v⟩,
          d.getD sd * sinR v * sinR hz,
          d.getD sd * sinR v * cosR hz,
          d.getD sd * cosR v⟩)) ∧
    (∀ m : Meas, m.hz = none ∨ m.v = none →
      MTP.trackRecord sinR cosR sd m = (m.distance.getD sd, none)) := by
  constructor
  · intro d hz v
    rfl
  · intro m h
    rcases m with ⟨d, hz, v⟩
    unfold MTP.trackRecord
    rcases h with h | h <;> simp only at h <;> subst h
    · rfl
    · cases hz <;> rfl

/-- Witness for C5: a cycle with both angles and a fresh distance writes
the record with that distance; a cycle missing the horizontal angle writes
nothing but still updates the carried distance. -/
theorem C5_record_step_witness :
    (MTP.trackRecord (fun q => q) (fun q => q) 0 ⟨some 2, some 1, some 1⟩ =
      ((some (2:ℚ)).getD 0, some ⟨⟨some 2, some 1, some 1⟩,
        (some (2:ℚ)).getD 0 * 1 * 1, (some (2:ℚ)).getD 0 * 1 * 1,
        (some (2:ℚ)).getD 0 * 1⟩)) ∧
    (((⟨some 3, none, some 1⟩ : Meas).hz = none ∨ (⟨some 3, none, some 1⟩ : Meas).v = none) ∧
      MTP.trackRecord (fun q => q) (fun q => q) 0 ⟨some 3, none, some 1⟩ =
        ((⟨some 3, none, some 1⟩ : Meas).distance.getD 0, none)) :=
  ⟨(C5_record_step (fun q => q) (fun q => q) 0).1 (some 2) 1 1,
    Or.inl rfl,
    (C5_record_step (fun q => q) (fun q => q) 0).2 ⟨some 3, none, some 1⟩ (Or.inl rfl)⟩

/-! ### Claim C1 — mode-5 stop detector -/

/-- Claim C1, counterexample: starting in the moving state with counter 0,
three consecutive cycles whose angles match the reference exactly (deltas
0 < 3′) leave the detector still moving with no recorded measurement: the
source records only when the incremented counter exceeds 3, i.e. on the
fourth in-threshold cycle, not after 3 consecutive cycles as claimed. -/
theorem C1_mode5_counterexample :
    (MTP.mode5run (fun q => q) (fun q => q) ⟨true, 0, 0, 0, 0, 0⟩ 0
      [⟨0, 0, 1, 1, 1⟩, ⟨0, 0, 1, 1, 1⟩, ⟨0, 0, 1, 1, 1⟩]).1.moving = true ∧
    (MTP.mode5run (fun q => q) (fun q => q) ⟨true, 0, 0, 0, 0, 0⟩ 0
      [⟨0, 0, 1, 1, 1⟩, ⟨0, 0, 1, 1, 1⟩, ⟨0, 0, 1, 1, 1⟩]).2.2 = [] := by
  have hlim : |(0:ℚ) - 0| < MTP.limitM5 := by
    rw [MTP.limitM5_val]
    norm_num
  have c1 := MTP.mode5cycle_count (fun q => q) (fun q => q) ⟨true, 0, 0, 0, 0, 0⟩ 0
    ⟨0, 0, 1, 1, 1⟩ rfl ⟨hlim, hlim⟩ (by norm_num)
  have c2 := MTP.mode5cycle_count (fun q => q) (fun q => q) ⟨true, 1, 0, 0, 0, 0⟩ 0
    ⟨0, 0, 1, 1, 1⟩ rfl ⟨hlim, hlim⟩ (by norm_num)
  have c3 := MTP.mode5cycle_count (fun q => q) (fun q => q) ⟨true, 2, 0, 0, 0, 0⟩ 0
    ⟨0, 0, 1, 1, 1⟩ rfl ⟨hlim, hlim⟩ (by norm_num)
  constructor <;>
    simp [MTP.mode5run, c1, c2, c3]

/-- Claim C1 (amended): starting in the moving state with counter 0, it
takes four (not three) consecutive cycles with both angle deltas strictly
under the 3-arcminute threshold — measured against the stored reference
angles `prev_hz`/`prev_v`, which stay fixed during the streak — for the
detector to transition to stopped; on that fourth cycle it performs
exactly one full distance measurement and records it as the new last
recorded point; while stopped, a cycle whose delta against the last
recorded point reaches the threshold transitions back to moving without
recording any point. -/
theorem C1_mode5_detector (sinR cosR : ℚ → ℚ) (st : MTP.M5State) (sd : ℚ)
    (i1 i2 i3 i4 i5 : MTP.M5Input)
    (hmov : st.moving = true) (hn : st.n = 0)
    (h1 : |st.prevHz - i1.hz| < MTP.limitM5 ∧ |st.prevV - i1.v| < MTP.limitM5)
    (h2 : |st.prevHz - i2.hz| < MTP.limitM5 ∧ |st.prevV - i2.v| < MTP.limitM5)
    (h3 : |st.prevHz - i3.hz| < MTP.limitM5 ∧ |st.prevV - i3.v| < MTP.limitM5)
    (h4 : |st.prevHz - i4.hz| < MTP.limitM5 ∧ |st.prevV - i4.v| < MTP.limitM5)
    (h5 : MTP.limitM5 ≤ |i4.stopHz - i5.hz| ∨ MTP.limitM5 ≤ |i4.stopV - i5.v|) :
    MTP.mode5run sinR cosR st sd [i1, i2, i3, i4, i5] =
      (⟨true, 0, i4.stopHz, i4.stopV, i4.stopHz, i4.stopV⟩, i4.stopDist,
       [⟨⟨some i4.stopDist, some i4.stopHz, some i4.stopV⟩,
         i4.stopDist * sinR i4.stopV * sinR i4.stopHz,
         i4.stopDist * sinR i4.stopV * cosR i4.stopHz,
         i4.stopDist * cosR i4.stopV⟩]) := by
  obtain ⟨mov, n, pHz, pV, lHz, lV⟩ := st
  simp only at hmov hn h1 h2 h3 h4
  subst hmov
  subst hn
  have c1 := MTP.mode5cycle_count sinR cosR ⟨true, 0, pHz, pV, lHz, lV⟩ sd i1
    rfl h1 (by norm_num)
  have c2 := MTP.mode5cycle_count sinR cosR ⟨true, 0 + 1, pHz, pV, lHz, lV⟩ sd i2
    rfl h2 (by norm_num)
  have c3 := MTP.mode5cycle_count sinR cosR ⟨true, 0 + 1 + 1, pHz, pV, lHz, lV⟩ sd i3
    rfl h3 (by norm_num)
  have c4 := MTP.mode5cycle_stop sinR cosR ⟨true, 0 + 1 + 1 + 1, pHz, pV, lHz, lV⟩ sd i4
    rfl h4 (by norm_num)
  have c5 := MTP.mode5cycle_wake sinR cosR
    ⟨false, 0, i4.stopHz, i4.stopV, i4.stopHz, i4.stopV⟩ i4.stopDist i5 rfl h5
  simp [MTP.mode5run, c1, c2, c3, c4, c5]

/-- Witness for C1: four exactly-repeating cycles at the reference
direction followed by a 9-radian jump; one record is emitted, on the
fourth cycle. -/
theorem C1_mode5_detector_witness :
    (|(0:ℚ) - 0| < MTP.limitM5) ∧ (MTP.limitM5 ≤ |(2:ℚ) - 9|) ∧
    MTP.mode5run (fun q => q) (fun q => q) ⟨true, 0, 0, 0, 0, 0⟩ 0
      [⟨0, 0, 2, 2, 7⟩, ⟨0, 0, 2, 2, 7⟩, ⟨0, 0, 2, 2, 7⟩, ⟨0, 0, 2, 2, 7⟩,
        ⟨9, 9, 0, 0, 0⟩] =
      (⟨true, 0, 2, 2, 2, 2⟩, 7,
       [⟨⟨some 7, some 2, some 2⟩, 28, 28, 14⟩]) := by
  have hlim : |(0:ℚ) - 0| < MTP.limitM5 := by
    rw [MTP.limitM5_val]
    norm_num
  have hjump : MTP.limitM5 ≤ |(2:ℚ) - 9| := by
    rw [MTP.limitM5_val]
    norm_num
  refine ⟨hlim, hjump, ?_⟩
  have h := C1_mode5_detector (fun q => q) (fun q => q) ⟨true, 0, 0, 0, 0, 0⟩ 0
    ⟨0, 0, 2, 2, 7⟩ ⟨0, 0, 2, 2, 7⟩ ⟨0, 0, 2, 2, 7⟩ ⟨0, 0, 2, 2, 7⟩ ⟨9, 9, 0, 0, 0⟩
    rfl rfl ⟨hlim, hlim⟩ ⟨hlim, hlim⟩ ⟨hlim, hlim⟩ ⟨hlim, hlim⟩ (Or.inl hjump)
  rw [h]
  norm_num

/-! ### Horizontal section scan (src/pyapps/horizsection.py)

The per-point elevation-matching iteration and the step loop around the
circle.  The instrument is the environment: `ElevReply j` is what the j-th
inner iteration observes after its `MoveRel`/`Measure` — the interface
state check, and the measurement delivered by `GetMeasure` once the inner
`while 'distance' not in nextp` wait has completed (hence `dist` is always
present; `v` may still be absent).  The `zenith1 = acos(h0/distance)`
rotation command only affects the instrument, whose subsequent readings the
environment already provides. -/

structure ElevReply where
  bad : Bool
  v : Option ℚ
  dist : ℚ

/-- Environment of one step point: the state check after the step's
`Measure()` (src/pyapps/horizsection.py:89), the state check after its
`GetMeasure()` (line 96), the decoded observation (line 95), and the
replies of the successive elevation-matching iterations. -/
structure StepEnv where
  badMeasure : Bool
  badGet : Bool
  first : Meas
  elev : ℕ → ElevReply

namespace HS

/-- Embeds the elevation-matching loop (src/pyapps/horizsection.py:108):
`while abs(height-height0) > tol`: set `w = True`, rotate by the corrected
zenith, re-measure, increment `index`; if `index > maxiter` or the
interface state is not OK, set `w = False`, log a warning and break;
re-read the measurement (waiting until `distance` is present); if `v` is
missing, break (with `w` still `True`); else recompute the height and
iterate.  Returns the final measurement `(v?, distance)` and `w`. -/
def elevLoop (cosR : ℚ → ℚ) (tol h0 : ℚ) (maxiter : ℕ) (env : ℕ → ElevReply)
    (nextp : Option ℚ × ℚ) (height : ℚ) (index : ℕ) (w : Bool) :
    (Option ℚ × ℚ) × Bool :=
  if ¬ (|height - h0| > tol) then (nextp, w)
  else
    let r := env (index + 1)
    if h : maxiter < index + 1 ∨ r.bad then (nextp, false)
    else
      match r.v with
      | none => ((r.v, r.dist), true)
      | some v =>
          elevLoop cosR tol h0 maxiter env (r.v, r.dist) (cosR v * r.dist)
            (index + 1) true
termination_by maxiter + 1 - index
decreasing_by
  push_neg at h
  omega

/-- Embeds one non-first step point of `HorizontalSection.run`
(src/pyapps/horizsection.py:88-134): a bad interface state after `Measure`
or after `GetMeasure` skips the point (after resetting the state and moving
on); a missing `v`, `distance` or `hz` field skips the point; otherwise the
elevation loop runs and the point is recorded exactly when the final
measurement still has `distance` (always true here) and `w` is true.
Returns the `w` flag carried to the next step and the recorded point, if
any. -/
def stepRun (cosR : ℚ → ℚ) (tol h0 : ℚ) (maxiter : ℕ) (w : Bool) (env : StepEnv) :
    Bool × Option (Option ℚ × ℚ) :=
  if env.badMeasure then (w, none)
  else if env.badGet then (w, none)
  else
    match env.first.v, env.first.distance, env.first.hz with
    | some v, some d, some _ =>
        let res := elevLoop cosR tol h0 maxiter env.elev (some v, d) (cosR v * d) 0 w
        (res.2, if res.2 then some res.1 else none)
    | _, _, _ => (w, none)

/-- The scan over the successive step angles, carrying the `w` flag (which
the source initialises once, outside the step loop). -/
def hsScan (cosR : ℚ → ℚ) (tol h0 : ℚ) (maxiter : ℕ) (w : Bool) :
    List StepEnv → List (Option (Option ℚ × ℚ))
  | [] => []
  | e :: rest =>
      let s := stepRun cosR tol h0 maxiter w e
      s.2 :: hsScan cosR tol h0 maxiter s.1 rest

theorem elevLoop_ceiling (cosR : ℚ → ℚ) (tol h0 : ℚ) (maxiter : ℕ)
    (env : ℕ → ElevReply)
    (hgood : ∀ j, 1 ≤ j → j ≤ maxiter + 1 → (env j).bad = false ∧
      ∃ vj, (env j).v = some vj ∧ |cosR vj * (env j).dist - h0| > tol) :
    ∀ (k index : ℕ) (nextp : Option ℚ × ℚ) (height : ℚ) (w : Bool),
      index + k = maxiter + 1 → |height - h0| > tol →
      (elevLoop cosR tol h0 maxiter env nextp height index w).2 = false := by
  intro k
  induction k with
  | zero =>
      intro index nextp height w hk hh
      unfold elevLoop
      rw [if_neg (by exact not_not.mpr hh)]
      rw [dif_pos (Or.inl (by omega))]
  | succ k ih =>
      intro index nextp height w hk hh
      unfold elevLoop
      rw [if_neg (by exact not_not.mpr hh)]
      by_cases hc : maxiter < index + 1 ∨ (env (index + 1)).bad
      · rw [dif_pos hc]
      · rw [dif_neg hc]
        obtain ⟨-, vj, hv, hout⟩ := hgood (index + 1) (by omega) (by omega)
        simp only [hv]
        exact ih (index + 1) _ _ true (by omega) hout

end HS

/-! ### Claim C9 — skipping failed points in the horizontal section -/

/-- Claim C9: for a step point after the first, if the measurement read
fails (interface state not OK after `Measure` or `GetMeasure`) or the
elevation-matching iteration ceiling is exceeded (every reply healthy and
carrying `v` yet never inside tolerance through `maxiter + 1` iterations),
the point is abandoned — nothing is recorded for it — and the scan
continues with the remaining step angles instead of aborting. -/
theorem C9_horizsection_skip (cosR : ℚ → ℚ) (tol h0 : ℚ) (maxiter : ℕ)
    (w : Bool) (env : StepEnv)
    (hfail : (env.badMeasure = true ∨ env.badGet = true) ∨
      (∃ v d hz, env.first = ⟨some d, some hz, some v⟩ ∧ |cosR v * d - h0| > tol ∧
        ∀ j, 1 ≤ j → j ≤ maxiter + 1 → (env.elev j).bad = false ∧
          ∃ vj, (env.elev j).v = some vj ∧
            |cosR vj * (env.elev j).dist - h0| > tol)) :
    (HS.stepRun cosR tol h0 maxiter w env).2 = none ∧
    ∀ rest, HS.hsScan cosR tol h0 maxiter w (env :: rest) =
      none :: HS.hsScan cosR tol h0 maxiter
        (HS.stepRun cosR tol h0 maxiter w env).1 rest := by
  have habandon : (HS.stepRun cosR tol h0 maxiter w env).2 = none := by
    unfold HS.stepRun
    by_cases hm : env.badMeasure
    · rw [if_pos hm]
    · rw [if_neg hm]
      by_cases hg : env.badGet
      · rw [if_pos hg]
      · rw [if_neg hg]
        rcases hfail with (hcase | hcase) | hcase
        · exact absurd hcase hm
        · exact absurd hcase hg
        · obtain ⟨v, d, hz, hfirst, hout, hgood⟩ := hcase
          rw [hfirst]
          simp only
          rw [HS.elevLoop_ceiling cosR tol h0 maxiter env.elev hgood (maxiter + 1) 0
            (some v, d) (cosR v * d) w (by omega) hout]
          rfl
  refine ⟨habandon, fun rest => ?_⟩
  show (HS.stepRun cosR tol h0 maxiter w env).2 ::
      HS.hsScan cosR tol h0 maxiter (HS.stepRun cosR tol h0 maxiter w env).1 rest = _
  rw [habandon]

/-- Witness for C9: with ceiling 1, tolerance 0 and an instrument whose
height never approaches the target plane, the point produces no record and
the scan of that single step completes. -/
theorem C9_horizsection_skip_witness :
    (HS.stepRun (fun q => q) 0 0 1 true
        ⟨false, false, ⟨some 1, some 0, some 1⟩, fun _ => ⟨false, some 1, 1⟩⟩).2 = none ∧
    HS.hsScan (fun q => q) 0 0 1 true
        [⟨false, false, ⟨some 1, some 0, some 1⟩, fun _ => ⟨false, some 1, 1⟩⟩] =
      [none] := by
  have h := C9_horizsection_skip (fun q => q) 0 0 1 true
    ⟨false, false, ⟨some 1, some 0, some 1⟩, fun _ => ⟨false, some 1, 1⟩⟩
    (Or.inr ⟨1, 1, 0, rfl, by norm_num, fun j h1 h2 => ⟨rfl, 1, rfl, by norm_num⟩⟩)
  refine ⟨h.1, ?_⟩
  rw [h.2 []]
  rfl

/-! ### NMEA GNSS unit (src/pyapi/nmeagnssunit.py)

`NmeaGnssUnit.Result` for the GPGGA message type.  Python strings are
`List Char`; a raised exception (`ValueError` from `float`/`int`, unpacking
or indexing errors) is `none`, like an explicit `return None`. -/

/-- XOR checksum accumulator (src/pyapi/nmeagnssunit.py:51):
`cksum1 = 0; for s in data[1:]: cksum1 ^= ord(s)`. -/
def xorFold (l : List Char) : ℕ := l.foldl (fun a c => a ^^^ c.toNat) 0

/-- Lowercasing of one ASCII character, Python `str.lower()` restricted to
the ASCII range used by NMEA sentences. -/
def toLowerChar (c : Char) : Char :=
  if 65 ≤ c.toNat ∧ c.toNat ≤ 90 then Char.ofNat (c.toNat + 32) else c

/-- Lowercase hexadecimal digit (only ever applied to values below 16). -/
def hexDigitChar (d : ℕ) : Char :=
  match d with
  | 0 => '0' | 1 => '1' | 2 => '2' | 3 => '3' | 4 => '4' | 5 => '5'
  | 6 => '6' | 7 => '7' | 8 => '8' | 9 => '9' | 10 => 'a' | 11 => 'b'
  | 12 => 'c' | 13 => 'd' | 14 => 'e' | _ => 'f'

/-- Lowercase hexadecimal digit list of a natural number, no leading
zeros (`hexDigits 0 = "0"`). -/
def hexDigits (n : ℕ) : List Char :=
  if n < 16 then [hexDigitChar n]
  else hexDigits (n / 16) ++ [hexDigitChar (n % 16)]
termination_by n
decreasing_by
  exact Nat.div_lt_self (by omega) (by omega)

/-- Python `hex()` of a nonnegative integer: `0x` followed by lowercase
hex digits without leading zeros. -/
def pyHex (n : ℕ) : List Char := '0' :: 'x' :: hexDigits n

/-- Uppercase two-hex-digit rendering of a byte, the canonical transmitted
NMEA checksum field (`%02X`). -/
def upperHexChar (d : ℕ) : Char :=
  match d with
  | 0 => '0' | 1 => '1' | 2 => '2' | 3 => '3' | 4 => '4' | 5 => '5'
  | 6 => '6' | 7 => '7' | 8 => '8' | 9 => '9' | 10 => 'A' | 11 => 'B'
  | 12 => 'C' | 13 => 'D' | 14 => 'E' | _ => 'F'

/-- Canonical two-digit uppercase checksum field of a byte. -/
def upperHex2 (n : ℕ) : List Char := [upperHexChar (n / 16), upperHexChar (n % 16)]

/-- Python `int(s)` on a decimal string (optional sign, decimal digits);
a malformed string raises `ValueError` (`none`). -/
def parsePyInt (l : List Char) : Option ℤ :=
  match l with
  | '-' :: rest =>
      if rest ≠ [] ∧ rest.all Ulx.charDigit then some (-(digitsVal rest : ℤ)) else none
  | '+' :: rest =>
      if rest ≠ [] ∧ rest.all Ulx.charDigit then some ((digitsVal rest : ℤ)) else none
  | _ => if l ≠ [] ∧ l.all Ulx.charDigit then some ((digitsVal l : ℤ)) else none

/-- Unsigned decimal literal with optional fractional part, the subset of
Python `float(s)` grammar NMEA fields use. -/
def parseUnsignedFloat (l : List Char) : Option ℚ :=
  match splitChar '.' l with
  | [ip] => if ip ≠ [] ∧ ip.all Ulx.charDigit then some ((digitsVal ip : ℚ)) else none
  | [ip, fp] =>
      if ip ++ fp ≠ [] ∧ ip.all Ulx.charDigit ∧ fp.all Ulx.charDigit then
        some ((digitsVal ip : ℚ) + (digitsVal fp : ℚ) / 10 ^ fp.length)
      else none
  | _ => none

/-- Python `float(s)` on a decimal literal (optional sign); a malformed
string raises `ValueError` (`none`). -/
def parsePyFloat (l : List Char) : Option ℚ :=
  match l with
  | '-' :: rest => (parseUnsignedFloat rest).map Neg.neg
  | '+' :: rest => parseUnsignedFloat rest
  | _ => parseUnsignedFloat l

/-- Decoded GPGGA data: latitude/longitude as radian angle values
(π-units, through `dm2rad` with the hemisphere sign applied), fix quality,
satellite count, altitude and HDOP.  (The source also stores a `datetime`
key that is always `None` at this point; it carries no data and is not
modelled.) -/
structure GgaData where
  latitude : ℚ
  longitude : ℚ
  quality : ℤ
  nsat : ℤ
  altitude : ℚ
  hdop : ℚ
  deriving DecidableEq, Repr

/-- Embeds `NmeaGnssUnit.Result` (src/pyapi/nmeagnssunit.py:39) for
`msg = "GPGGA"`: reject when `ans[1:6]` differs from the tag; split at `*`
(any count of `*` other than one raises on unpacking); recompute the XOR
over the characters between `$` and `*` and compare
`('0x' + cksum).lower()` against `hex(cksum1).lower()` as strings,
rejecting on mismatch; split the full sentence on commas; reject a zero
(no-fix) quality; parse the fields, applying the hemisphere sign
(`anslist[3] == 'N'`, `anslist[5] == 'E'`) to the NMEA angle values before
the `Angle(..., 'NMEA')` conversion `dm2rad`. -/
def nmeaGga (ans : List Char) : Option GgaData :=
  if (ans.drop 1).take 5 ≠ ['G', 'P', 'G', 'G', 'A'] then none
  else
    let parts := splitChar '*' ans
    if parts.length = 2 then
      let data := parts.getD 0 []
      let cksum := parts.getD 1 []
      if ('0' :: 'x' :: cksum).map toLowerChar ≠
          (pyHex (xorFold (data.drop 1))).map toLowerChar then none
      else
        let anslist := splitChar ',' ans
        if 9 < anslist.length then
          (parsePyInt (anslist.getD 6 [])).bind fun q =>
          if q = 0 then none
          else
            (parsePyFloat (anslist.getD 2 [])).bind fun latv =>
            (parsePyFloat (anslist.getD 4 [])).bind fun lonv =>
            (parsePyInt (anslist.getD 7 [])).bind fun ns =>
            (parsePyFloat (anslist.getD 9 [])).bind fun av =>
            (parsePyFloat (anslist.getD 8 [])).bind fun hd =>
            some ⟨Ulx.dm2rad ((if anslist.getD 3 [] = ['N'] then 1 else -1) * latv),
                  Ulx.dm2rad ((if anslist.getD 5 [] = ['E'] then 1 else -1) * lonv),
                  q, ns, av, hd⟩
        else none
    else none

/-! ### XOR checksum arithmetic -/

theorem xorFold_aux (l : List Char) (i : ℕ) :
    l.foldl (fun a c => a ^^^ c.toNat) i = i ^^^ xorFold l := by
  induction l generalizing i with
  | nil => simp [xorFold]
  | cons c rest ih =>
      simp only [xorFold, List.foldl_cons]
      rw [ih, ih (0 ^^^ c.toNat)]
      simp [Nat.xor_assoc]

theorem xorFold_cons (c : Char) (l : List Char) :
    xorFold (c :: l) = c.toNat ^^^ xorFold l := by
  unfold xorFold
  rw [List.foldl_cons, xorFold_aux]
  simp
  rfl

theorem xorFold_append (a b : List Char) :
    xorFold (a ++ b) = xorFold a ^^^ xorFold b := by
  unfold xorFold
  rw [List.foldl_append, xorFold_aux]
  rfl

theorem xorFold_testBit6_false (l : List Char)
    (h : l.all (fun c => decide (c.toNat < 64)) = true) :
    (xorFold l).testBit 6 = false := by
  induction l with
  | nil => simp [xorFold]
  | cons c rest ih =>
      rw [List.all_cons, Bool.and_eq_true] at h
      rw [xorFold_cons, Nat.testBit_xor]
      have hc : c.toNat < 2 ^ 6 := by
        have := of_decide_eq_true h.1
        norm_num
        omega
      rw [Nat.testBit_lt_two_pow hc, ih h.2]
      rfl

theorem xorFold_lt_128 (l : List Char)
    (h : l.all (fun c => decide (c.toNat < 128)) = true) :
    xorFold l < 2 ^ 7 := by
  induction l with
  | nil => simp [xorFold]
  | cons c rest ih =>
      rw [List.all_cons, Bool.and_eq_true] at h
      rw [xorFold_cons]
      have hc : c.toNat < 2 ^ 7 := by
        have := of_decide_eq_true h.1
        norm_num
        omega
      exact Nat.xor_lt_two_pow hc (ih h.2)

theorem ge_64_of_testBit6 {x : ℕ} (h : x.testBit 6 = true) : 64 ≤ x := by
  by_contra hc
  push_neg at hc
  have : x < 2 ^ 6 := by norm_num; omega
  rw [Nat.testBit_lt_two_pow this] at h
  exact Bool.false_ne_true h

/-! ### Hexadecimal rendering -/

theorem hexDigits_two {n : ℕ} (h1 : 16 ≤ n) (h2 : n < 256) :
    hexDigits n = [hexDigitChar (n / 16), hexDigitChar (n % 16)] := by
  unfold hexDigits
  rw [if_neg (by omega)]
  unfold hexDigits
  rw [if_pos (by omega)]
  rfl

theorem lower_upperHexChar {d : ℕ} (h : d < 16) :
    toLowerChar (upperHexChar d) = hexDigitChar d := by
  interval_cases d <;> decide

theorem lower_hexDigitChar {d : ℕ} (h : d < 16) :
    toLowerChar (hexDigitChar d) = hexDigitChar d := by
  interval_cases d <;> decide

theorem upperHexChar_plain (d : ℕ) : upperHexChar d ≠ '*' ∧ upperHexChar d ≠ ',' := by
  unfold upperHexChar
  split <;> exact ⟨by decide, by decide⟩

theorem star_not_mem_upperHex2 (n : ℕ) : '*' ∉ upperHex2 n := by
  unfold upperHex2
  intro hm
  rcases List.mem_cons.mp hm with h1 | h2
  · exact (upperHexChar_plain (n / 16)).1 h1.symm
  · simp at h2
    exact (upperHexChar_plain (n % 16)).1 h2.symm

/-! ### Valid GPGGA sentence shape

The claim quantifies over "unmodified valid sentences"; the shape below
follows the claim's words: a `$GPGGA` sentence with the standard fourteen
comma-separated fields (time, latitude, hemisphere, longitude, hemisphere,
quality, satellite count, HDOP, altitude, `M`, geoid separation, `M`, two
empty differential fields) and the canonical two-digit uppercase checksum
of the characters between `$` and `*`. -/

/-- Character class of a free NMEA field: ASCII below 64 (digits, dot,
sign, ...), in particular neither the `*` nor the `,` delimiter. -/
def plainCh (c : Char) : Bool :=
  decide (c.toNat < 64) && decide (c ≠ '*') && decide (c ≠ ',')

/-- The characters the XOR checksum covers (between `$` and `*`), for the
standard GPGGA field layout. -/
def ggaXorBody (time lat lon qual nsat hdop alt geoid : List Char)
    (latH lonH : Char) : List Char :=
  ['G', 'P', 'G', 'G', 'A'] ++ ',' :: (time ++ ',' :: (lat ++ ',' :: ([latH] ++ ',' ::
    (lon ++ ',' :: ([lonH] ++ ',' :: (qual ++ ',' :: (nsat ++ ',' :: (hdop ++ ',' ::
    (alt ++ ',' :: (['M'] ++ ',' :: (geoid ++ ',' :: (['M'] ++ ',' :: ([] ++ [','])))))))))))))

/-- A full GPGGA sentence with the standard field layout and an arbitrary
transmitted checksum field. -/
def mkGga (time lat lon qual nsat hdop alt geoid : List Char)
    (latH lonH : Char) (ck : List Char) : List Char :=
  '$' :: (ggaXorBody time lat lon qual nsat hdop alt geoid latH lonH ++ '*' :: ck)

theorem plain_comma_not_mem {l : List Char} (h : l.all plainCh = true) : ',' ∉ l := by
  intro hm
  have hx := List.all_eq_true.mp h ',' hm
  unfold plainCh at hx
  simp at hx
theorem plain_star_not_mem {l : List Char} (h : l.all plainCh = true) : '*' ∉ l := by
  intro hm
  have hx := List.all_eq_true.mp h '*' hm
  unfold plainCh at hx
  simp at hx

theorem plain_lt64 {l : List Char} (h : l.all plainCh = true) :
    l.all (fun c => decide (c.toNat < 64)) = true := by
  rw [List.all_eq_true] at h ⊢
  intro c hc
  have hx := h c hc
  unfold plainCh at hx
  simp only [Bool.and_eq_true, decide_eq_true_eq] at hx
  simp [hx.1.1]

theorem plain_lt128 {l : List Char} (h : l.all plainCh = true) :
    l.all (fun c => decide (c.toNat < 128)) = true := by
  rw [List.all_eq_true] at h ⊢
  intro c hc
  have hx := h c hc
  unfold plainCh at hx
  simp only [Bool.and_eq_true, decide_eq_true_eq] at hx
  simp
  omega

theorem star_not_mem_body {time lat lon qual nsat hdop alt geoid : List Char}
    {latH lonH : Char}
    (htime : time.all plainCh = true) (hlat : lat.all plainCh = true)
    (hlon : lon.all plainCh = true) (hqual : qual.all plainCh = true)
    (hnsat : nsat.all plainCh = true) (hhdop : hdop.all plainCh = true)
    (halt : alt.all plainCh = true) (hgeoid : geoid.all plainCh = true)
    (hlatH : latH = 'N' ∨ latH = 'S') (hlonH : lonH = 'E' ∨ lonH = 'W') :
    '*' ∉ ggaXorBody time lat lon qual nsat hdop alt geoid latH lonH := by
  intro hm
  have n1 := plain_star_not_mem htime
  have n2 := plain_star_not_mem hlat
  have n3 := plain_star_not_mem hlon
  have n4 := plain_star_not_mem hqual
  have n5 := plain_star_not_mem hnsat
  have n6 := plain_star_not_mem hhdop
  have n7 := plain_star_not_mem halt
  have n8 := plain_star_not_mem hgeoid
  unfold ggaXorBody at hm
  rcases hlatH with he | he <;> rcases hlonH with he2 | he2 <;> subst he <;> subst he2 <;>
    simp [List.mem_append, List.mem_cons, n1, n2, n3, n4, n5, n6, n7, n8] at hm

theorem mkGga_star_split {time lat lon qual nsat hdop alt geoid ck : List Char}
    {latH lonH : Char}
    (hbody : '*' ∉ ggaXorBody time lat lon qual nsat hdop alt geoid latH lonH)
    (hck : '*' ∉ ck) :
    splitChar '*' (mkGga time lat lon qual nsat hdop alt geoid latH lonH ck) =
      ['$' :: ggaXorBody time lat lon qual nsat hdop alt geoid latH lonH, ck] := by
  have hform : mkGga time lat lon qual nsat hdop alt geoid latH lonH ck =
      ('$' :: ggaXorBody time lat lon qual nsat hdop alt geoid latH lonH) ++ '*' :: ck := by
    simp [mkGga]
  rw [hform]
  rw [splitChar_append_sep _ (by
    intro hm
    rcases List.mem_cons.mp hm with h0 | h0
    · exact absurd h0 (by decide)
    · exact hbody h0)]
  rw [splitChar_no_sep hck]

theorem mkGga_tag (time lat lon qual nsat hdop alt geoid ck : List Char)
    (latH lonH : Char) :
    (((mkGga time lat lon qual nsat hdop alt geoid latH lonH ck).drop 1).take 5) =
      ['G', 'P', 'G', 'G', 'A'] := by
  rfl

theorem mkGga_comma_split {time lat lon qual nsat hdop alt geoid ck : List Char}
    {latH lonH : Char}
    (htime : time.all plainCh = true) (hlat : lat.all plainCh = true)
    (hlon : lon.all plainCh = true) (hqual : qual.all plainCh = true)
    (hnsat : nsat.all plainCh = true) (hhdop : hdop.all plainCh = true)
    (halt : alt.all plainCh = true) (hgeoid : geoid.all plainCh = true)
    (hlatH : latH = 'N' ∨ latH = 'S') (hlonH : lonH = 'E' ∨ lonH = 'W')
    (hck : ',' ∉ ck) :
    splitChar ',' (mkGga time lat lon qual nsat hdop alt geoid latH lonH ck) =
      [['$', 'G', 'P', 'G', 'G', 'A'], time, lat, [latH], lon, [lonH], qual, nsat,
        hdop, alt, ['M'], geoid, ['M'], [], '*' :: ck] := by
  have hform : mkGga time lat lon qual nsat hdop alt geoid latH lonH ck =
      ['$', 'G', 'P', 'G', 'G', 'A'] ++ ',' :: (time ++ ',' :: (lat ++ ',' :: ([latH] ++ ',' ::
        (lon ++ ',' :: ([lonH] ++ ',' :: (qual ++ ',' :: (nsat ++ ',' :: (hdop ++ ',' ::
        (alt ++ ',' :: (['M'] ++ ',' :: (geoid ++ ',' :: (['M'] ++ ',' :: ([] ++ ',' ::
        ('*' :: ck)))))))))))))) := by
    simp [mkGga, ggaXorBody]
  rw [hform]
  rw [splitChar_append_sep _ (by decide)]
  rw [splitChar_append_sep _ (plain_comma_not_mem htime)]
  rw [splitChar_append_sep _ (plain_comma_not_mem hlat)]
  rw [splitChar_append_sep _ (by
    rcases hlatH with he | he <;> subst he <;> decide)]
  rw [splitChar_append_sep _ (plain_comma_not_mem hlon)]
  rw [splitChar_append_sep _ (by
    rcases hlonH with he | he <;> subst he <;> decide)]
  rw [splitChar_append_sep _ (plain_comma_not_mem hqual)]
  rw [splitChar_append_sep _ (plain_comma_not_mem hnsat)]
  rw [splitChar_append_sep _ (plain_comma_not_mem hhdop)]
  rw [splitChar_append_sep _ (plain_comma_not_mem halt)]
  rw [splitChar_append_sep _ (by decide)]
  rw [splitChar_append_sep _ (plain_comma_not_mem hgeoid)]
  rw [splitChar_append_sep _ (by decide)]
  rw [splitChar_append_sep _ (by simp)]
  rw [splitChar_no_sep (by
    intro hm
    rcases List.mem_cons.mp hm with h0 | h0
    · exact absurd h0 (by decide)
    · exact hck h0)]

theorem ggaXorBody_testBit6 {time lat lon qual nsat hdop alt geoid : List Char}
    {latH lonH : Char}
    (htime : time.all plainCh = true) (hlat : lat.all plainCh = true)
    (hlon : lon.all plainCh = true) (hqual : qual.all plainCh = true)
    (hnsat : nsat.all plainCh = true) (hhdop : hdop.all plainCh = true)
    (halt : alt.all plainCh = true) (hgeoid : geoid.all plainCh = true)
    (hlatH : latH = 'N' ∨ latH = 'S') (hlonH : lonH = 'E' ∨ lonH = 'W') :
    (xorFold (ggaXorBody time lat lon qual nsat hdop alt geoid latH lonH)).testBit 6 =
      true := by
  have t1 := xorFold_testBit6_false time (plain_lt64 htime)
  have t2 := xorFold_testBit6_false lat (plain_lt64 hlat)
  have t3 := xorFold_testBit6_false lon (plain_lt64 hlon)
  have t4 := xorFold_testBit6_false qual (plain_lt64 hqual)
  have t5 := xorFold_testBit6_false nsat (plain_lt64 hnsat)
  have t6 := xorFold_testBit6_false hdop (plain_lt64 hhdop)
  have t7 := xorFold_testBit6_false alt (plain_lt64 halt)
  have t8 := xorFold_testBit6_false geoid (plain_lt64 hgeoid)
  rcases hlatH with he | he <;> rcases hlonH with he2 | he2 <;> subst he <;> subst he2 <;>
    (simp [ggaXorBody, xorFold_append, xorFold_cons, Nat.testBit_xor,
      t1, t2, t3, t4, t5, t6, t7, t8]
     decide)

theorem ggaXorBody_lt_128 {time lat lon qual nsat hdop alt geoid : List Char}
    {latH lonH : Char}
    (htime : time.all plainCh = true) (hlat : lat.all plainCh = true)
    (hlon : lon.all plainCh = true) (hqual : qual.all plainCh = true)
    (hnsat : nsat.all plainCh = true) (hhdop2 : hdop.all plainCh = true)
    (halt : alt.all plainCh = true) (hgeoid : geoid.all plainCh = true)
    (hlatH : latH = 'N' ∨ latH = 'S') (hlonH : lonH = 'E' ∨ lonH = 'W') :
    xorFold (ggaXorBody time lat lon qual nsat hdop alt geoid latH lonH) < 2 ^ 7 := by
  apply xorFold_lt_128
  have b1 := plain_lt128 htime
  have b2 := plain_lt128 hlat
  have b3 := plain_lt128 hlon
  have b4 := plain_lt128 hqual
  have b5 := plain_lt128 hnsat
  have b6 := plain_lt128 hhdop2
  have b7 := plain_lt128 halt
  have b8 := plain_lt128 hgeoid
  rcases hlatH with he | he <;> rcases hlonH with he2 | he2 <;> subst he <;> subst he2 <;>
    simp [ggaXorBody, List.all_append, List.all_cons, b1, b2, b3, b4, b5, b6, b7, b8]

theorem cksum_compare_eq {c : ℕ} (h64 : 64 ≤ c) (h128 : c < 2 ^ 7) :
    ('0' :: 'x' :: upperHex2 c).map toLowerChar = (pyHex c).map toLowerChar := by
  unfold upperHex2 pyHex
  rw [hexDigits_two (by omega) (by omega)]
  have hdiv : c / 16 < 16 := by omega
  have hmod : c % 16 < 16 := Nat.mod_lt _ (by omega)
  simp only [List.map_cons, List.map_nil]
  rw [lower_upperHexChar hdiv, lower_upperHexChar hmod,
    lower_hexDigitChar hdiv, lower_hexDigitChar hmod]

theorem cksum_compare_ne {c d : ℕ} (h64 : 64 ≤ c) (h128 : c < 2 ^ 7)
    (hd : d < 256) (hne : d ≠ c) :
    ('0' :: 'x' :: upperHex2 d).map toLowerChar ≠ (pyHex c).map toLowerChar := by
  have hinj : ∀ a < 16, ∀ b < 16, hexDigitChar a = hexDigitChar b → a = b := by decide
  intro he
  unfold upperHex2 pyHex at he
  rw [hexDigits_two (by omega) (by omega)] at he
  have hdivd : d / 16 < 16 := by omega
  have hmodd : d % 16 < 16 := Nat.mod_lt _ (by omega)
  have hdivc : c / 16 < 16 := by omega
  have hmodc : c % 16 < 16 := Nat.mod_lt _ (by omega)
  simp only [List.map_cons, List.map_nil] at he
  rw [lower_upperHexChar hdivd, lower_upperHexChar hmodd,
    lower_hexDigitChar hdivc, lower_hexDigitChar hmodc] at he
  simp only [List.cons.injEq] at he
  obtain ⟨-, -, e1', e2', -⟩ := he
  have e1 := hinj _ hdivd _ hdivc e1'
  have e2 := hinj _ hmodd _ hmodc e2'
  omega

theorem comma_not_mem_upperHex2 (n : ℕ) : ',' ∉ upperHex2 n := by
  unfold upperHex2
  intro hm
  rcases List.mem_cons.mp hm with h1 | h2
  · exact (upperHexChar_plain (n / 16)).2 h1.symm
  · simp at h2
    exact (upperHexChar_plain (n % 16)).2 h2.symm

theorem nmeaGga_valid (time lat lon qual nsat hdop alt geoid : List Char)
    (latH lonH : Char)
    (htime : time.all plainCh = true) (hlat : lat.all plainCh = true)
    (hlon : lon.all plainCh = true) (hqual : qual.all plainCh = true)
    (hnsat : nsat.all plainCh = true) (hhdop : hdop.all plainCh = true)
    (halt : alt.all plainCh = true) (hgeoid : geoid.all plainCh = true)
    (hlatH : latH = 'N' ∨ latH = 'S') (hlonH : lonH = 'E' ∨ lonH = 'W')
    (q ns : ℤ) (lv lonv hd av : ℚ)
    (hq : parsePyInt qual = some q) (hq0 : ¬ q = 0)
    (hns : parsePyInt nsat = some ns)
    (hlv : parsePyFloat lat = some lv) (hlonv : parsePyFloat lon = some lonv)
    (hhd : parsePyFloat hdop = some hd) (hav : parsePyFloat alt = some av) :
    nmeaGga (mkGga time lat lon qual nsat hdop alt geoid latH lonH
        (upperHex2 (xorFold (ggaXorBody time lat lon qual nsat hdop alt geoid latH lonH)))) =
      some ⟨Ulx.dm2rad ((if latH = 'N' then 1 else -1) * lv),
            Ulx.dm2rad ((if lonH = 'E' then 1 else -1) * lonv), q, ns, av, hd⟩ := by
  have h6 := ggaXorBody_testBit6 htime hlat hlon hqual hnsat hhdop halt hgeoid hlatH hlonH
  set c := xorFold (ggaXorBody time lat lon qual nsat hdop alt geoid latH lonH) with hcdef
  have h64 : 64 ≤ c := ge_64_of_testBit6 h6
  have h128 : c < 2 ^ 7 :=
    ggaXorBody_lt_128 htime hlat hlon hqual hnsat hhdop halt hgeoid hlatH hlonH
  have hbody := star_not_mem_body htime hlat hlon hqual hnsat hhdop halt hgeoid hlatH hlonH
  have hsStar := @mkGga_star_split time lat lon qual nsat hdop alt geoid (upperHex2 c) latH lonH hbody (star_not_mem_upperHex2 c)
  have hsComma := @mkGga_comma_split time lat lon qual nsat hdop alt geoid (upperHex2 c) latH lonH
    htime hlat hlon hqual hnsat hhdop halt hgeoid hlatH hlonH (comma_not_mem_upperHex2 c)
  have htag := mkGga_tag time lat lon qual nsat hdop alt geoid (upperHex2 c) latH lonH
  have hcomp := cksum_compare_eq h64 h128
  simp only [nmeaGga, htag, hsStar, hsComma]
  rw [if_neg (by exact not_not.mpr rfl)]
  rw [if_pos (by simp)]
  simp only [List.getD, List.get?, Option.getD_some]
  rw [if_neg (by exact not_not.mpr hcomp)]
  rw [if_pos (by simp)]
  simp only [hq, hlv, hlonv, hns, hav, hhd, Option.some_bind]
  rw [if_neg hq0]
  have hifn : (if [latH] = ['N'] then (1 : ℚ) else -1) = (if latH = 'N' then (1 : ℚ) else -1) := by
    simp
  have hife : (if [lonH] = ['E'] then (1 : ℚ) else -1) = (if lonH = 'E' then (1 : ℚ) else -1) := by
    simp
  rw [hifn, hife]

theorem nmeaGga_nofix (time lat lon qual nsat hdop alt geoid : List Char)
    (latH lonH : Char)
    (htime : time.all plainCh = true) (hlat : lat.all plainCh = true)
    (hlon : lon.all plainCh = true) (hqual : qual.all plainCh = true)
    (hnsat : nsat.all plainCh = true) (hhdop : hdop.all plainCh = true)
    (halt : alt.all plainCh = true) (hgeoid : geoid.all plainCh = true)
    (hlatH : latH = 'N' ∨ latH = 'S') (hlonH : lonH = 'E' ∨ lonH = 'W')
    (hq : parsePyInt qual = some 0) :
    nmeaGga (mkGga time lat lon qual nsat hdop alt geoid latH lonH
        (upperHex2 (xorFold (ggaXorBody time lat lon qual nsat hdop alt geoid latH lonH)))) =
      none := by
  have h6 := ggaXorBody_testBit6 htime hlat hlon hqual hnsat hhdop halt hgeoid hlatH hlonH
  set c := xorFold (ggaXorBody time lat lon qual nsat hdop alt geoid latH lonH) with hcdef
  have h64 : 64 ≤ c := ge_64_of_testBit6 h6
  have h128 : c < 2 ^ 7 :=
    ggaXorBody_lt_128 htime hlat hlon hqual hnsat hhdop halt hgeoid hlatH hlonH
  have hbody := star_not_mem_body htime hlat hlon hqual hnsat hhdop halt hgeoid hlatH hlonH
  have hsStar := @mkGga_star_split time lat lon qual nsat hdop alt geoid (upperHex2 c) latH lonH hbody (star_not_mem_upperHex2 c)
  have hsComma := @mkGga_comma_split time lat lon qual nsat hdop alt geoid (upperHex2 c) latH lonH
    htime hlat hlon hqual hnsat hhdop halt hgeoid hlatH hlonH (comma_not_mem_upperHex2 c)
  have htag := mkGga_tag time lat lon qual nsat hdop alt geoid (upperHex2 c) latH lonH
  have hcomp := cksum_compare_eq h64 h128
  simp only [nmeaGga, htag, hsStar, hsComma]
  rw [if_neg (by exact not_not.mpr rfl)]
  rw [if_pos (by simp)]
  simp only [List.getD, List.get?, Option.getD_some]
  rw [if_neg (by exact not_not.mpr hcomp)]
  rw [if_pos (by simp)]
  simp only [hq, Option.some_bind]
  simp

theorem nmeaGga_badck (time lat lon qual nsat hdop alt geoid : List Char)
    (latH lonH : Char) (d : ℕ)
    (htime : time.all plainCh = true) (hlat : lat.all plainCh = true)
    (hlon : lon.all plainCh = true) (hqual : qual.all plainCh = true)
    (hnsat : nsat.all plainCh = true) (hhdop : hdop.all plainCh = true)
    (halt : alt.all plainCh = true) (hgeoid : geoid.all plainCh = true)
    (hlatH : latH = 'N' ∨ latH = 'S') (hlonH : lonH = 'E' ∨ lonH = 'W')
    (hd : d < 256)
    (hne : d ≠ xorFold (ggaXorBody time lat lon qual nsat hdop alt geoid latH lonH)) :
    nmeaGga (mkGga time lat lon qual nsat hdop alt geoid latH lonH (upperHex2 d)) =
      none := by
  have h6 := ggaXorBody_testBit6 htime hlat hlon hqual hnsat hhdop halt hgeoid hlatH hlonH
  set c := xorFold (ggaXorBody time lat lon qual nsat hdop alt geoid latH lonH) with hcdef
  have h64 : 64 ≤ c := ge_64_of_testBit6 h6
  have h128 : c < 2 ^ 7 :=
    ggaXorBody_lt_128 htime hlat hlon hqual hnsat hhdop halt hgeoid hlatH hlonH
  have hbody := star_not_mem_body htime hlat hlon hqual hnsat hhdop halt hgeoid hlatH hlonH
  have hsStar := @mkGga_star_split time lat lon qual nsat hdop alt geoid (upperHex2 d) latH lonH hbody (star_not_mem_upperHex2 d)
  have htag := mkGga_tag time lat lon qual nsat hdop alt geoid (upperHex2 d) latH lonH
  have hcomp := cksum_compare_ne h64 h128 hd hne
  simp only [nmeaGga, htag, hsStar]
  rw [if_neg (by exact not_not.mpr rfl)]
  rw [if_pos (by simp)]
  simp only [List.getD, List.get?, Option.getD_some, List.drop_succ_cons, List.drop_zero]
  rw [if_pos hcomp]

theorem nmeaGga_example :
    nmeaGga "$GPGGA,183730,3907.356,N,12102.482,W,1,05,1.6,646.4,M,-24.1,M,,*75".toList =
      some ⟨Ulx.dm2rad (3907.356 : ℚ), Ulx.dm2rad (-(12102.482 : ℚ)), 1, 5,
        (646.4 : ℚ), (1.6 : ℚ)⟩ := by
  have hsent : "$GPGGA,183730,3907.356,N,12102.482,W,1,05,1.6,646.4,M,-24.1,M,,*75".toList =
      mkGga "183730".toList "3907.356".toList "12102.482".toList "1".toList "05".toList
        "1.6".toList "646.4".toList "-24.1".toList 'N' 'W'
        (upperHex2 (xorFold (ggaXorBody "183730".toList "3907.356".toList "12102.482".toList
          "1".toList "05".toList "1.6".toList "646.4".toList "-24.1".toList 'N' 'W'))) := by
    decide
  have h := nmeaGga_valid "183730".toList "3907.356".toList "12102.482".toList "1".toList
    "05".toList "1.6".toList "646.4".toList "-24.1".toList 'N' 'W'
    (by decide) (by decide) (by decide) (by decide) (by decide) (by decide) (by decide)
    (by decide) (Or.inl rfl) (Or.inr rfl)
    ((digitsVal ['1'] : ℤ)) ((digitsVal ['0', '5'] : ℤ))
    ((digitsVal ['3', '9', '0', '7'] : ℚ) +
      (digitsVal ['3', '5', '6'] : ℚ) / 10 ^ (['3', '5', '6'] : List Char).length)
    ((digitsVal ['1', '2', '1', '0', '2'] : ℚ) +
      (digitsVal ['4', '8', '2'] : ℚ) / 10 ^ (['4', '8', '2'] : List Char).length)
    ((digitsVal ['1'] : ℚ) + (digitsVal ['6'] : ℚ) / 10 ^ (['6'] : List Char).length)
    ((digitsVal ['6', '4', '6'] : ℚ) + (digitsVal ['4'] : ℚ) / 10 ^ (['4'] : List Char).length)
    rfl (by decide) rfl rfl rfl rfl rfl
  rw [hsent, h]
  have hx : (if ('N' : Char) = 'N' then (1 : ℚ) else -1) *
      ((digitsVal ['3', '9', '0', '7'] : ℚ) +
        (digitsVal ['3', '5', '6'] : ℚ) / 10 ^ (['3', '5', '6'] : List Char).length) =
      (3907.356 : ℚ) := by
    rw [if_pos rfl, show digitsVal ['3', '9', '0', '7'] = 3907 from by decide,
      show digitsVal ['3', '5', '6'] = 356 from by decide]
    push_cast
    norm_num
  have hy : (if ('W' : Char) = 'E' then (1 : ℚ) else -1) *
      ((digitsVal ['1', '2', '1', '0', '2'] : ℚ) +
        (digitsVal ['4', '8', '2'] : ℚ) / 10 ^ (['4', '8', '2'] : List Char).length) =
      -(12102.482 : ℚ) := by
    rw [if_neg (by decide), show digitsVal ['1', '2', '1', '0', '2'] = 12102 from by decide,
      show digitsVal ['4', '8', '2'] = 482 from by decide]
    push_cast
    norm_num
  rw [hx, hy]
  have hq : (digitsVal ['1'] : ℤ) = 1 := by decide
  have hns : (digitsVal ['0', '5'] : ℤ) = 5 := by decide
  have hav : (digitsVal ['6', '4', '6'] : ℚ) +
      (digitsVal ['4'] : ℚ) / 10 ^ (['4'] : List Char).length = (646.4 : ℚ) := by
    rw [show digitsVal ['6', '4', '6'] = 646 from by decide,
      show digitsVal ['4'] = 4 from by decide]
    push_cast
    norm_num
  have hhd : (digitsVal ['1'] : ℚ) + (digitsVal ['6'] : ℚ) / 10 ^ (['6'] : List Char).length =
      (1.6 : ℚ) := by
    rw [show digitsVal ['1'] = 1 from by decide, show digitsVal ['6'] = 6 from by decide]
    push_cast
    norm_num
  rw [hq, hns, hav, hhd]

theorem rad2deg_example_lat : Ulx.rad2deg (Ulx.dm2rad (3907.356 : ℚ)) = 39.1226 := by
  have ht : ratTrunc ((3907.356 : ℚ) / 100) = 39 := by
    unfold ratTrunc
    rw [if_neg (by norm_num)]
    rw [show ⌊(3907.356 : ℚ) / 100⌋ = 39 from by
      rw [Int.floor_eq_iff]
      norm_num]
  simp only [Ulx.rad2deg, Ulx.dm2rad, ht]
  norm_num

theorem rad2deg_example_lon :
    Ulx.rad2deg (Ulx.dm2rad (-(12102.482 : ℚ))) = -(3631241/30000 : ℚ) := by
  have ht : ratTrunc ((-(12102.482 : ℚ)) / 100) = -121 := by
    unfold ratTrunc
    rw [if_pos (by norm_num)]
    rw [show (-((-(12102.482 : ℚ)) / 100)) = 12102.482 / 100 by norm_num]
    rw [show ⌊(12102.482 : ℚ) / 100⌋ = 121 from by
      rw [Int.floor_eq_iff]
      norm_num]
  simp only [Ulx.rad2deg, Ulx.dm2rad, ht]
  norm_num

/-! ### Claim C4 — the GPGGA decoder -/

/-- Claim C4: over sentences with the standard GPGGA field layout (the
claim's "unmodified valid sentences", assembled by `mkGga`): (1) every such
sentence carrying the canonical two-digit checksum of its own XOR and a
non-zero fix quality decodes successfully, with the hemisphere sign applied
to the NMEA latitude and longitude values before conversion; (2) a
transmitted checksum byte whose value differs from the recomputed XOR makes
decoding fail with `none`; (3) a zero (no-fix) quality code makes decoding
fail with `none`; and (4) the example sentence
`$GPGGA,183730,3907.356,N,12102.482,W,1,05,1.6,646.4,M,-24.1,M,,*75`
decodes to quality 1, 5 satellites, latitude exactly 39.1226° and
longitude exactly −3631241/30000 ° ≈ −121.0414°.  (The string comparison
`('0x'+cksum).lower() != hex(cksum1).lower()` is exact here: the nine
letters of the standard layout force the XOR above 0x40, so `hex()` never
drops a leading zero for such sentences.) -/
theorem C4_nmea_decoder :
    (∀ (time lat lon qual nsat hdop alt geoid : List Char) (latH lonH : Char)
      (q ns : ℤ) (lv lonv hd av : ℚ),
      time.all plainCh = true → lat.all plainCh = true → lon.all plainCh = true →
      qual.all plainCh = true → nsat.all plainCh = true → hdop.all plainCh = true →
      alt.all plainCh = true → geoid.all plainCh = true →
      latH = 'N' ∨ latH = 'S' → lonH = 'E' ∨ lonH = 'W' →
      parsePyInt qual = some q → ¬ q = 0 → parsePyInt nsat = some ns →
      parsePyFloat lat = some lv → parsePyFloat lon = some lonv →
      parsePyFloat hdop = some hd → parsePyFloat alt = some av →
      nmeaGga (mkGga time lat lon qual nsat hdop alt geoid latH lonH
          (upperHex2 (xorFold (ggaXorBody time lat lon qual nsat hdop alt geoid latH lonH)))) =
        some ⟨Ulx.dm2rad ((if latH = 'N' then 1 else -1) * lv),
              Ulx.dm2rad ((if lonH = 'E' then 1 else -1) * lonv), q, ns, av, hd⟩) ∧
    (∀ (time lat lon qual nsat hdop alt geoid : List Char) (latH lonH : Char) (d : ℕ),
      time.all plainCh = true → lat.all plainCh = true → lon.all plainCh = true →
      qual.all plainCh = true → nsat.all plainCh = true → hdop.all plainCh = true →
      alt.all plainCh = true → geoid.all plainCh = true →
      latH = 'N' ∨ latH = 'S' → lonH = 'E' ∨ lonH = 'W' →
      d < 256 → d ≠ xorFold (ggaXorBody time lat lon qual nsat hdop alt geoid latH lonH) →
      nmeaGga (mkGga time lat lon qual nsat hdop alt geoid latH lonH (upperHex2 d)) = none) ∧
    (∀ (time lat lon qual nsat hdop alt geoid : List Char) (latH lonH : Char),
      time.all plainCh = true → lat.all plainCh = true → lon.all plainCh = true →
      qual.all plainCh = true → nsat.all plainCh = true → hdop.all plainCh = true →
      alt.all plainCh = true → geoid.all plainCh = true →
      latH = 'N' ∨ latH = 'S' → lonH = 'E' ∨ lonH = 'W' →
      parsePyInt qual = some 0 →
      nmeaGga (mkGga time lat lon qual nsat hdop alt geoid latH lonH
          (upperHex2 (xorFold (ggaXorBody time lat lon qual nsat hdop alt geoid latH lonH)))) =
        none) ∧
    (nmeaGga "$GPGGA,183730,3907.356,N,12102.482,W,1,05,1.6,646.4,M,-24.1,M,,*75".toList =
        some ⟨Ulx.dm2rad (3907.356 : ℚ), Ulx.dm2rad (-(12102.482 : ℚ)), 1, 5,
          (646.4 : ℚ), (1.6 : ℚ)⟩ ∧
      Ulx.rad2deg (Ulx.dm2rad (3907.356 : ℚ)) = 39.1226 ∧
      Ulx.rad2deg (Ulx.dm2rad (-(12102.482 : ℚ))) = -(3631241/30000 : ℚ)) := by
  refine ⟨?_, ?_, ?_, nmeaGga_example, rad2deg_example_lat, rad2deg_example_lon⟩
  · intro time lat lon qual nsat hdop alt geoid latH lonH q ns lv lonv hd av
      h1 h2 h3 h4 h5 h6 h7 h8 h9 h10 h11 h12 h13 h14 h15 h16 h17
    exact nmeaGga_valid time lat lon qual nsat hdop alt geoid latH lonH
      h1 h2 h3 h4 h5 h6 h7 h8 h9 h10 q ns lv lonv hd av h11 h12 h13 h14 h15 h16 h17
  · intro time lat lon qual nsat hdop alt geoid latH lonH d
      h1 h2 h3 h4 h5 h6 h7 h8 h9 h10 h11 h12
    exact nmeaGga_badck time lat lon qual nsat hdop alt geoid latH lonH d
      h1 h2 h3 h4 h5 h6 h7 h8 h9 h10 h11 h12
  · intro time lat lon qual nsat hdop alt geoid latH lonH
      h1 h2 h3 h4 h5 h6 h7 h8 h9 h10 h11
    exact nmeaGga_nofix time lat lon qual nsat hdop alt geoid latH lonH
      h1 h2 h3 h4 h5 h6 h7 h8 h9 h10 h11

/-- Witness for C4: the three general prongs instantiated on the example
sentence's fields — successful decode with the correct checksum 0x75,
rejection with the corrupted checksum byte 0x74, and rejection of the
no-fix variant (quality field `0`). -/
theorem C4_nmea_decoder_witness :
    (nmeaGga (mkGga "183730".toList "3907.356".toList "12102.482".toList "1".toList
        "05".toList "1.6".toList "646.4".toList "-24.1".toList 'N' 'W'
        (upperHex2 (xorFold (ggaXorBody "183730".toList "3907.356".toList "12102.482".toList
          "1".toList "05".toList "1.6".toList "646.4".toList "-24.1".toList 'N' 'W')))) =
      some ⟨Ulx.dm2rad ((if ('N' : Char) = 'N' then 1 else -1) *
              ((digitsVal ['3', '9', '0', '7'] : ℚ) +
                (digitsVal ['3', '5', '6'] : ℚ) / 10 ^ (['3', '5', '6'] : List Char).length)),
            Ulx.dm2rad ((if ('W' : Char) = 'E' then 1 else -1) *
              ((digitsVal ['1', '2', '1', '0', '2'] : ℚ) +
                (digitsVal ['4', '8', '2'] : ℚ) / 10 ^ (['4', '8', '2'] : List Char).length)),
            (digitsVal ['1'] : ℤ), (digitsVal ['0', '5'] : ℤ),
            (digitsVal ['6', '4', '6'] : ℚ) +
              (digitsVal ['4'] : ℚ) / 10 ^ (['4'] : List Char).length,
            (digitsVal ['1'] : ℚ) + (digitsVal ['6'] : ℚ) / 10 ^ (['6'] : List Char).length⟩) ∧
    (nmeaGga (mkGga "183730".toList "3907.356".toList "12102.482".toList "1".toList
        "05".toList "1.6".toList "646.4".toList "-24.1".toList 'N' 'W'
        (upperHex2 116)) = none) ∧
    (nmeaGga (mkGga "183730".toList "3907.356".toList "12102.482".toList "0".toList
        "05".toList "1.6".toList "646.4".toList "-24.1".toList 'N' 'W'
        (upperHex2 (xorFold (ggaXorBody "183730".toList "3907.356".toList "12102.482".toList
          "0".toList "05".toList "1.6".toList "646.4".toList "-24.1".toList 'N' 'W')))) =
      none) := by
  obtain ⟨h1, h2, h3, -⟩ := C4_nmea_decoder
  refine ⟨?_, ?_, ?_⟩
  · exact h1 "183730".toList "3907.356".toList "12102.482".toList "1".toList "05".toList
      "1.6".toList "646.4".toList "-24.1".toList 'N' 'W' _ _ _ _ _ _
      (by decide) (by decide) (by decide) (by decide) (by decide) (by decide) (by decide)
      (by decide) (Or.inl rfl) (Or.inr rfl) rfl (by decide) rfl rfl rfl rfl rfl
  · exact h2 "183730".toList "3907.356".toList "12102.482".toList "1".toList "05".toList
      "1.6".toList "646.4".toList "-24.1".toList 'N' 'W' 116
      (by decide) (by decide) (by decide) (by decide) (by decide) (by decide) (by decide)
      (by decide) (Or.inl rfl) (Or.inr rfl) (by decide) (by decide)
  · exact h3 "183730".toList "3907.356".toList "12102.482".toList "0".toList "05".toList
      "1.6".toList "646.4".toList "-24.1".toList 'N' 'W'
      (by decide) (by decide) (by decide) (by decide) (by decide) (by decide) (by decide)
      (by decide) (Or.inl rfl) (Or.inr rfl) (by decide)
